import Mathlib

/-!
Verification of the walliser multi-screen wallpaper rotation engine.

This file gives a shallow embedding, in Lean, of the parts of the code
that the specification talks about:

* `modlist` (src/walliser/core.py, lines 66-91): the cyclic partition
  container, with Python integer-modulo and Python list-index semantics
  made explicit;
* `ScreenController` (src/walliser/core.py, lines 272-442): screens,
  the active-set tracker and the rotation engine, as a pure state
  machine over an explicit state record;
* `Config.save` / `dict_update_recursive` (src/walliser/config.py):
  the persistence reconciler, with its file writes reified as an
  explicit event trace;
* `Column.__set__` / `Model.save` (src/walliser/database.py): the
  dirty-column tracking of the miniature ORM.

Machine integers of the source are modelled as `Int`; Python `dict`s as
association lists preserving insertion order; fallible operations
return `Option` or an explicit error case.
-/

namespace Walliser

/-- Python modulo `a % b`.  Python uses floor-based modulo whose result has
the sign of `b`; every divisor in the embedded code is a list length, hence
non-negative, and on that domain floor modulo coincides with Lean's
Euclidean `Int.emod`.  Python raises `ZeroDivisionError` for `b = 0`,
modelled as `none`. -/
def pyMod (a b : Int) : Option Int :=
  if b = 0 then none else some (a % b)

/-- Python list subscription `l[i]` with an `int` key: indices `0 ≤ i <
len(l)` read directly, negative indices `-len(l) ≤ i < 0` read from the
end, anything else raises `IndexError` (modelled as `none`). -/
def pyListGet {α : Type} (l : List α) (i : Int) : Option α :=
  if 0 ≤ i then
    if h : i.toNat < l.length then some (l.get ⟨i.toNat, h⟩) else none
  else
    let j := (l.length : Int) + i
    if 0 ≤ j then
      if h : j.toNat < l.length then some (l.get ⟨j.toNat, h⟩) else none
    else none

/-- Index arithmetic of `modlist.__getitem__` (core.py line 80):
`(key * self._step + self._offset) % self._len`.  Defined for a pool of
the given length; `modlist` caches `_len = len(base_list)` at
construction and no element is ever removed in the embedded scenarios. -/
def modlistIndex (len : Nat) (step offset key : Int) : Int :=
  (key * step + offset) % (len : Int)

/-- The body of `modlist.__getitem__` (core.py lines 78-86) for an `int`
key: `self._list[(key * self._step + self._offset) % self._len]`.
The Python modulo raises on an empty pool and the list access follows
Python index semantics; both failure modes are `none`. -/
def modlistGetitem {α : Type} (l : List α) (step offset key : Int) : Option α :=
  (pyMod (key * step + offset) (l.length : Int)).bind (pyListGet l)

/-- Helper: the wrapped index of a non-empty pool is in range. -/
theorem modlistIndex_nonneg_lt (len : Nat) (step offset key : Int)
    (hlen : 0 < len) :
    0 ≤ modlistIndex len step offset key ∧
      modlistIndex len step offset key < (len : Int) := by
  unfold modlistIndex
  constructor
  · exact Int.emod_nonneg _ (by exact_mod_cast Nat.pos_iff_ne_zero.mp hlen)
  · exact Int.emod_lt_of_pos _ (by exact_mod_cast hlen)

/-- C3: a read of the cyclic partition at any integer key `i` returns
`pool[(i * stride + offset) mod len(pool)]` and never fails when the pool
is non-empty; on an empty pool the read fails (Python raises).  The read
is a pure function of the pool, so the pool is not mutated. -/
theorem modlist_getitem_spec {α : Type} (l : List α) (step offset i : Int) :
    (l = [] → modlistGetitem l step offset i = none) ∧
    (l ≠ [] → ∀ d : α,
      modlistGetitem l step offset i =
        some (l.getD (modlistIndex l.length step offset i).toNat d)) := by
  constructor
  · intro h
    subst h
    simp [modlistGetitem, pyMod]
  · intro h d
    have hlen : 0 < l.length := List.length_pos.mpr h
    obtain ⟨h0, hlt⟩ := modlistIndex_nonneg_lt l.length step offset i hlen
    have hne : (l.length : Int) ≠ 0 := by exact_mod_cast Nat.pos_iff_ne_zero.mp hlen
    have hidx : (modlistIndex l.length step offset i).toNat < l.length := by
      omega
    unfold modlistGetitem pyMod
    rw [if_neg hne]
    show pyListGet l (modlistIndex l.length step offset i) = _
    unfold pyListGet
    rw [if_pos h0, dif_pos hidx]
    rw [List.getD_eq_getElem l d hidx]
    simp

/-- C3 witness: concrete evaluation on the pool `[10, 20, 30]` with
stride `2`, offset `1` and the negative key `-4`:
`(-4 * 2 + 1) mod 3 = 2`, so the read yields element `30`. -/
theorem modlist_getitem_spec_witness :
    ([10, 20, 30] : List Nat) ≠ [] ∧
      modlistGetitem ([10, 20, 30] : List Nat) 2 1 (-4) = some 30 := by
  refine ⟨by decide, ?_⟩
  have h := (modlist_getitem_spec ([10, 20, 30] : List Nat) 2 1 (-4)).2
    (by decide) 0
  simpa [modlistIndex] using h

/-- Index set of the cyclic partition with pool size `P`, stride `S` and
offset `i`: the positions `(k * S + i) mod P` reachable for integer keys
`k`.  `ScreenController.__init__` (core.py lines 302-308) builds one such
partition per screen with `S` = screen count and `i` = screen index. -/
def partitionIndices (P : Nat) (S i : Int) : Set Int :=
  {p | ∃ k : Int, modlistIndex P S i k = p}

/-- C2 counterexample: with pool size `P = 3` and `S = 2` screens the
partitions of screen `0` and screen `1` both contain pool position `1`
(`(2*2+0) mod 3 = 1` and `(0*2+1) mod 3 = 1`), so the index sets are not
pairwise disjoint. -/
theorem partition_disjointness_counterexample :
    (1 : Int) ∈ partitionIndices 3 2 0 ∧ (1 : Int) ∈ partitionIndices 3 2 1 := by
  constructor
  · exact ⟨2, by decide⟩
  · exact ⟨0, by decide⟩

/-- C2 amended: the cyclic partitions with stride `S` and offsets
`0 .. S-1` always cover every position of a non-empty pool, and they are
pairwise disjoint provided the screen count `S` divides the pool size
`P`; for `S` not dividing `P` distinct offsets can share positions. -/
theorem partition_cover_and_dvd_disjoint (P S : Nat) (hP : 0 < P) (hS : 0 < S) :
    (∀ p : Int, 0 ≤ p → p < (P : Int) →
      ∃ i : Int, 0 ≤ i ∧ i < (S : Int) ∧ p ∈ partitionIndices P S i) ∧
    (S ∣ P → ∀ i j : Int, 0 ≤ i → i < (S : Int) → 0 ≤ j → j < (S : Int) →
      i ≠ j → ∀ p : Int,
        p ∈ partitionIndices P S i → p ∉ partitionIndices P S j) := by
  have hSne : (S : Int) ≠ 0 := by exact_mod_cast Nat.pos_iff_ne_zero.mp hS
  constructor
  · intro p hp0 hpP
    refine ⟨p % (S : Int), Int.emod_nonneg p hSne,
      Int.emod_lt_of_pos p (by exact_mod_cast hS), ⟨p / (S : Int), ?_⟩⟩
    unfold modlistIndex
    have hsplit : p / (S : Int) * (S : Int) + p % (S : Int) = p := by
      rw [mul_comm]
      exact Int.ediv_add_emod p (S : Int)
    rw [hsplit]
    exact Int.emod_eq_of_lt hp0 hpP
  · intro hdvd i j hi0 hiS hj0 hjS hij p hpi hpj
    obtain ⟨k1, hk1⟩ := hpi
    obtain ⟨k2, hk2⟩ := hpj
    have hmodP : Int.ModEq (P : Int) (k1 * (S : Int) + i) (k2 * (S : Int) + j) := by
      unfold modlistIndex at hk1 hk2
      exact hk1.trans hk2.symm
    have hSP : (S : Int) ∣ (P : Int) := Int.natCast_dvd_natCast.mpr hdvd
    have hmodS : Int.ModEq (S : Int) (k1 * (S : Int) + i) (k2 * (S : Int) + j) :=
      Int.ModEq.of_dvd hSP hmodP
    have hiq : (k1 * (S : Int) + i) % (S : Int) = i % (S : Int) := by
      rw [add_comm, Int.add_mul_emod_self]
    have hjq : (k2 * (S : Int) + j) % (S : Int) = j % (S : Int) := by
      rw [add_comm, Int.add_mul_emod_self]
    have : i % (S : Int) = j % (S : Int) := by
      have h := hmodS
      unfold Int.ModEq at h
      rw [hiq, hjq] at h
      exact h
    rw [Int.emod_eq_of_lt hi0 hiS, Int.emod_eq_of_lt hj0 hjS] at this
    exact hij this

/-- C2 amended witness: concrete instance `P = 4`, `S = 2` of the
amended statement (the hypotheses `0 < 4`, `0 < 2` are discharged). -/
theorem partition_cover_and_dvd_disjoint_witness :
    (∀ p : Int, 0 ≤ p → p < (4 : Int) →
      ∃ i : Int, 0 ≤ i ∧ i < (2 : Int) ∧ p ∈ partitionIndices 4 2 i) ∧
    (2 ∣ 4 → ∀ i j : Int, 0 ≤ i → i < (2 : Int) → 0 ≤ j → j < (2 : Int) →
      i ≠ j → ∀ p : Int,
        p ∈ partitionIndices 4 2 i → p ∉ partitionIndices 4 2 j) :=
  partition_cover_and_dvd_disjoint 4 2 (by decide) (by decide)

/-! ### Python dictionaries as association lists

Python `dict`s preserve insertion order: assigning to an existing key
keeps its position, a new key is appended at the end. -/

/-- Python `d[k]` / `k in d`: lookup of the (unique) binding of `k`. -/
def alookup {β : Type} : List (String × β) → String → Option β
  | [], _ => none
  | (k2, v) :: rest, k => if k2 = k then some v else alookup rest k

/-- Python `d[k] = v`: replace the binding of `k` in place, or append. -/
def aset {β : Type} : List (String × β) → String → β → List (String × β)
  | [], k, v => [(k, v)]
  | (k2, v2) :: rest, k, v =>
      if k2 = k then (k, v) :: rest else (k2, v2) :: aset rest k v

theorem alookup_aset_same {β : Type} (a : List (String × β)) (k : String)
    (v : β) : alookup (aset a k v) k = some v := by
  induction a with
  | nil => simp [aset, alookup]
  | cons p rest ih =>
      obtain ⟨k2, v2⟩ := p
      by_cases h : k2 = k
      · simp [aset, h, alookup]
      · simp [aset, h, alookup, ih]

theorem alookup_aset_other {β : Type} (a : List (String × β)) (k k2 : String)
    (v : β) (h : k ≠ k2) : alookup (aset a k v) k2 = alookup a k2 := by
  induction a with
  | nil => simp [aset, alookup, h]
  | cons p rest ih =>
      obtain ⟨k3, v3⟩ := p
      by_cases h3 : k3 = k
      · subst h3
        simp [aset, alookup, h]
      · simp [aset, h3, alookup, ih]

/-! ### The JSON store and `dict_update_recursive` (config.py) -/

/-- JSON-style values held by the config store: numbers, strings,
timestamps (`datetime` values, ordered by a natural number) and nested
objects. -/
inductive JVal where
  | num : Int → JVal
  | str : String → JVal
  | time : Nat → JVal
  | obj : List (String × JVal) → JVal

/-- Shorthand for a JSON object body. -/
def JDict : Type := List (String × JVal)

/-- The function `dict_update_recursive(a, b)` of config.py lines 17-23:
for each key of `b` in order, if both sides hold a dict the values are
merged recursively in place, otherwise `a[key] = b[key]`.  Returns the
mutated first argument. -/
def dictUpdate : List (String × JVal) → List (String × JVal) → List (String × JVal)
  | a, [] => a
  | a, (k, JVal.obj ob) :: rest =>
      (match alookup a k with
       | some (JVal.obj oa) => dictUpdate (aset a k (JVal.obj (dictUpdate oa ob))) rest
       | _ => dictUpdate (aset a k (JVal.obj ob)) rest)
  | a, (k, v) :: rest => dictUpdate (aset a k v) rest
termination_by a b => sizeOf b

/-- The in-memory merge step of `Config.save` (config.py lines 92-98):
read the store fresh from disk; if the disk copy carries a newer
top-level `modified` timestamp, merge the whole in-memory dict over the
fresh read with `dict_update_recursive`, otherwise take the in-memory
dict as-is; then stamp both with `now`.  Returns
`(contents written to disk, new in-memory dict)`; `none` models the
`KeyError` when either side lacks a `modified` timestamp. -/
def configSave (disk mem : JDict) (now : Nat) : Option (JDict × JDict) :=
  match alookup disk "modified", alookup mem "modified" with
  | some (JVal.time td), some (JVal.time tm) =>
      let data := if tm < td then dictUpdate disk mem else mem
      some (aset data "modified" (JVal.time now),
            aset mem "modified" (JVal.time now))
  | _, _ => none

/-- Rating of the wallpaper record `hash` inside a store dict. -/
def ratingOf (d : JDict) (hash : String) : Option JVal :=
  match alookup d "wallpapers" with
  | some (JVal.obj ws) =>
      match alookup ws hash with
      | some (JVal.obj w) => alookup w "rating"
      | _ => none
  | _ => none

/-- Store contents of the C1 scenario: wallpaper A and B with the given
ratings, top-level `modified` timestamp `t`. -/
def storeAB (t : Nat) (ra rb : Int) : JDict :=
  [("modified", JVal.time t),
   ("wallpapers", JVal.obj
      [("A", JVal.obj [("rating", JVal.num ra)]),
       ("B", JVal.obj [("rating", JVal.num rb)])])]

/-- C1 counterexample: store loaded with A=3, B=5; in memory A was
changed to 7 (so memory holds A=7 and the stale B=5); an external writer
changed the disk copy to B=9 with a newer `modified` stamp (10 > 5).
`Config.save` then writes B=5, not B=9: the recursive merge pushes the
whole in-memory dict, stale records included, over the fresh read. -/
theorem config_save_clobbers_external_edit :
    configSave (storeAB 10 3 9) (storeAB 5 7 5) 20 =
      some (storeAB 20 7 5, storeAB 20 7 5) ∧
    ratingOf (storeAB 20 7 5) "B" = some (JVal.num 5) ∧
    ratingOf (storeAB 20 7 5) "B" ≠ some (JVal.num 9) := by
  refine ⟨?_, by simp [ratingOf, storeAB, alookup], by simp [ratingOf, storeAB, alookup]⟩
  simp [configSave, storeAB, dictUpdate, aset, alookup]

/-- C1 amended: in the scenario of the claim (disk newer than memory),
save keeps the dirty in-memory A=7 but also overwrites B with the stale
in-memory value 5, losing the external B=9; the merge works on the
whole in-memory dict at leaf granularity, not only on dirty records. -/
theorem config_save_merge_amended (td tm now : Nat) (h : tm < td) :
    configSave (storeAB td 3 9) (storeAB tm 7 5) now =
      some (storeAB now 7 5, storeAB now 7 5) ∧
    ratingOf (storeAB now 7 5) "A" = some (JVal.num 7) ∧
    ratingOf (storeAB now 7 5) "B" = some (JVal.num 5) := by
  refine ⟨?_, by simp [ratingOf, storeAB, alookup], by simp [ratingOf, storeAB, alookup]⟩
  simp [configSave, storeAB, dictUpdate, aset, alookup, h]

/-- C1 amended witness: timestamps 5 < 10, stamping time 20. -/
theorem config_save_merge_amended_witness :
    configSave (storeAB 10 3 9) (storeAB 5 7 5) 20 =
      some (storeAB 20 7 5, storeAB 20 7 5) ∧
    ratingOf (storeAB 20 7 5) "A" = some (JVal.num 7) ∧
    ratingOf (storeAB 20 7 5) "B" = some (JVal.num 5) :=
  config_save_merge_amended 10 5 20 (by decide)

/-! ### The file writes of `Config.save` (config.py lines 100-110)

The I/O of the save path is reified as a trace of file-system events so
that the states visible to a concurrent reader between two events can be
inspected.  The file system is a map from path to contents. -/

/-- Primitive file-system events.  `rename` is the primitive an atomic
temp-file-and-rename write would use; it is part of the vocabulary so
that its absence from the actual trace is a meaningful statement. -/
inductive FsEvent where
  | copyFile : String → String → FsEvent
  | mkdir : String → FsEvent
  | truncateOpen : String → FsEvent
  | writeAll : String → String → FsEvent
  | rename : String → String → FsEvent
deriving DecidableEq, Repr

/-- Effect of one event on the file system.  Opening with mode `"wt"`
truncates the file to empty contents immediately; the contents are
written afterwards by `json.dump`. -/
def applyEvent (fs : List (String × String)) : FsEvent → List (String × String)
  | FsEvent.copyFile src dst =>
      match alookup fs src with
      | some c => aset fs dst c
      | none => fs
  | FsEvent.mkdir _ => fs
  | FsEvent.truncateOpen p => aset fs p ""
  | FsEvent.writeAll p c => aset fs p c
  | FsEvent.rename src dst =>
      match alookup fs src with
      | some c => aset fs dst c
      | none => fs

/-- Replay a trace of events over an initial file system. -/
def replay (fs : List (String × String)) (evs : List FsEvent) : List (String × String) :=
  evs.foldl applyEvent fs

/-- Event trace of the write phase of `Config.save` (config.py lines
100-110): if the store file exists, a once-per-day backup copy may be
made; otherwise a directory is created; then the store path itself is
opened with mode `"wt"` (truncating it) and the merged contents are
dumped into it.  No temporary path and no rename are involved. -/
def configSaveEvents (path backupPath : String) (pathIsFile backupExists : Bool)
    (content : String) : List FsEvent :=
  (if pathIsFile then
     (if backupExists then [] else [FsEvent.copyFile path backupPath])
   else [FsEvent.mkdir path]) ++
  [FsEvent.truncateOpen path, FsEvent.writeAll path content]

/-- Truth predicate: the event is not a rename. -/
def notRename : FsEvent → Prop
  | FsEvent.rename _ _ => False
  | _ => True

instance (e : FsEvent) : Decidable (notRename e) := by
  cases e <;> simp [notRename] <;> infer_instance

/-- C7 counterexample: with an existing store file `"cfg"` holding
`"OLD"` and today's backup already made, saving contents `"NEW"` emits
`[truncateOpen "cfg", writeAll "cfg" "NEW"]`.  The trace contains no
rename, and after the first event (a reachable intermediate step for a
concurrent reader) the store path holds the empty string: a half-written
store is observable at the store's own path. -/
theorem config_save_not_atomic_counterexample :
    (∀ e ∈ configSaveEvents "cfg" "cfg.backup" true true "NEW", notRename e) ∧
    alookup (replay [("cfg", "OLD")]
        ((configSaveEvents "cfg" "cfg.backup" true true "NEW").take 1)) "cfg" =
      some "" ∧
    ("" : String) ≠ "OLD" ∧ ("" : String) ≠ "NEW" := by
  refine ⟨by decide, ?_, by decide, by decide⟩
  simp [configSaveEvents, replay, applyEvent, aset, alookup]

/-- C7 amended: the save is not performed via a temporary path plus
rename; it truncates the store path in place and then writes the merged
contents at that same path, so between the truncation and the final
write a concurrent reader of the store's path observes an empty
(half-written) file.  The final replayed state does hold the merged
contents. -/
theorem config_save_in_place (path backupPath content : String)
    (pathIsFile backupExists : Bool) (fs0 : List (String × String)) :
    (∀ e ∈ configSaveEvents path backupPath pathIsFile backupExists content,
      notRename e) ∧
    alookup (replay fs0 (configSaveEvents path backupPath pathIsFile backupExists content))
        path = some content ∧
    (∃ n < (configSaveEvents path backupPath pathIsFile backupExists content).length,
      alookup (replay fs0
          ((configSaveEvents path backupPath pathIsFile backupExists content).take n))
        path = some "") := by
  refine ⟨?_, ?_, ?_⟩
  · intro e he
    cases pathIsFile with
    | false =>
        cases backupExists <;>
          · simp [configSaveEvents] at he
            rcases he with rfl | rfl | rfl <;> trivial
    | true =>
        cases backupExists with
        | false =>
            simp [configSaveEvents] at he
            rcases he with rfl | rfl | rfl <;> trivial
        | true =>
            simp [configSaveEvents] at he
            rcases he with rfl | rfl <;> trivial
  · cases pathIsFile <;> cases backupExists <;>
      simp [configSaveEvents, replay, applyEvent, alookup_aset_same]
  · cases pathIsFile <;> cases backupExists
    · exact ⟨2, by simp [configSaveEvents],
        by simp [configSaveEvents, replay, applyEvent, alookup_aset_same]⟩
    · exact ⟨2, by simp [configSaveEvents],
        by simp [configSaveEvents, replay, applyEvent, alookup_aset_same]⟩
    · exact ⟨2, by simp [configSaveEvents],
        by simp [configSaveEvents, replay, applyEvent, alookup_aset_same]⟩
    · exact ⟨1, by simp [configSaveEvents],
        by simp [configSaveEvents, replay, applyEvent, alookup_aset_same]⟩

/-! ### The miniature ORM (database.py)

`Column` is the descriptor of database.py lines 66-106, `Model` the base
class of lines 177-263.  Column values are modelled as `Option Int`
(`none` is SQL NULL); a row of the backing table is an association list
from column name to value.  Observer notification (`_notify_observers_`)
has no effect on the dirty state and is not modelled. -/

structure Column where
  name : String
  default : Option Int := none
  nullable : Bool := true
  primary : Bool := false
  mutable : Bool := true
deriving DecidableEq, Repr

structure Model where
  columnValues : List (String × Option Int)
  updatedColumns : List String
deriving DecidableEq, Repr

/-- `Column.__get__` (line 89-90): `model._column_values_.get(name, default)`. -/
def columnGet (c : Column) (m : Model) : Option Int :=
  (alookup m.columnValues c.name).getD c.default

/-- Python `set.add`: membership is idempotent, a new element is added. -/
def setInsert (l : List String) (k : String) : List String :=
  if k ∈ l then l else l ++ [k]

/-- `Column.__set__` (database.py lines 92-103): immutable or
non-nullable violations raise `AttributeError`; otherwise, only when the
new value differs from the current one, the column name is added to the
model's `_updated_columns_` and the value stored. -/
def columnSet (c : Column) (m : Model) (v : Option Int) : Except String Model :=
  if ¬ c.mutable then Except.error "immutable"
  else if v = none ∧ ¬ c.nullable then Except.error "not nullable"
  else if columnGet c m ≠ v then
    Except.ok { columnValues := aset m.columnValues c.name v,
                updatedColumns := setInsert m.updatedColumns c.name }
  else Except.ok m

/-- One row of the backing table. -/
abbrev Row : Type := List (String × Option Int)

/-- Outcome of `Model.save`: on success the table and the model are
updated; when the SQL execution raises, the exception propagates before
the line `self._updated_columns_ = set()` runs, so both the table and
the model are left as they were. -/
inductive SaveResult where
  | ok : List Row → Model → SaveResult
  | failed : List Row → Model → SaveResult
deriving DecidableEq, Repr

/-- `Model.save` (database.py lines 250-263): an empty
`_updated_columns_` returns immediately without touching the database;
otherwise an `UPDATE ... SET <dirty columns> WHERE <primary> = <pk>` is
executed (`execFails` models the execution raising) and on success the
dirty set is cleared. -/
def modelSave (primary : String) (execFails : Bool) (db : List Row) (m : Model) :
    SaveResult :=
  if m.updatedColumns.isEmpty then SaveResult.ok db m
  else if execFails then SaveResult.failed db m
  else
    let data := m.updatedColumns.map (fun n => (n, (alookup m.columnValues n).getD none))
    let pk := (alookup m.columnValues primary).getD none
    SaveResult.ok
      (db.map (fun row =>
        if alookup row primary = some pk then
          data.foldl (fun r kv => aset r kv.1 kv.2) row
        else row))
      { m with updatedColumns := [] }

/-- The `rating` column of the Wallpaper model: mutable, nullable,
default 0. -/
def ratingColumn : Column := { name := "rating", default := some 0 }

/-- Helper: inserting into the dirty set never leaves it empty. -/
theorem setInsert_isEmpty (l : List String) (k : String) :
    (setInsert l k).isEmpty = false := by
  unfold setInsert
  by_cases h : k ∈ l
  · rw [if_pos h]
    cases l with
    | nil => cases h
    | cons a t => rfl
  · rw [if_neg h]
    cases l <;> rfl

/-- C8: assigning a changed rating to a wallpaper model adds exactly
`rating` to that model's dirty-column set and stores the value; a save
that executes successfully clears the dirty set; a save whose execution
fails leaves the table and the model (dirty set included) intact; and a
save of a model with an empty dirty set performs no table write at all,
whatever the connection would do. -/
theorem rating_dirty_tracking (m : Model) (v : Option Int) (db : List Row)
    (primary : String) (hchanged : columnGet ratingColumn m ≠ v) :
    ∃ m2 : Model,
      columnSet ratingColumn m v = Except.ok m2 ∧
      m2.updatedColumns = setInsert m.updatedColumns "rating" ∧
      m2.columnValues = aset m.columnValues "rating" v ∧
      (∃ db2, modelSave primary false db m2 =
        SaveResult.ok db2 { m2 with updatedColumns := [] }) ∧
      modelSave primary true db m2 = SaveResult.failed db m2 ∧
      (∀ (f : Bool) (db3 : List Row) (m4 : Model), m4.updatedColumns = [] →
        modelSave primary f db3 m4 = SaveResult.ok db3 m4) := by
  refine ⟨{ columnValues := aset m.columnValues "rating" v,
            updatedColumns := setInsert m.updatedColumns "rating" },
    ?_, rfl, rfl, ?_, ?_, ?_⟩
  · unfold columnSet
    rw [if_neg (by simp [ratingColumn]), if_neg (by simp [ratingColumn]),
      if_pos hchanged]
    rfl
  · unfold modelSave
    rw [if_neg (by simp [setInsert_isEmpty]), if_neg (by simp)]
    exact ⟨_, rfl⟩
  · unfold modelSave
    rw [if_neg (by simp [setInsert_isEmpty]), if_pos rfl]
  · intro f db3 m4 h4
    unfold modelSave
    rw [if_pos (by simp [h4])]

/-- C8 witness: a model with hash 1, stored rating 0 and a clean dirty
set; assigning rating 5 satisfies the changed-value hypothesis. -/
theorem rating_dirty_tracking_witness :
    columnGet ratingColumn
        { columnValues := [("hash", some 1), ("rating", some 0)],
          updatedColumns := [] } ≠ some 5 ∧
    ∃ m2 : Model,
      columnSet ratingColumn
          { columnValues := [("hash", some 1), ("rating", some 0)],
            updatedColumns := [] } (some 5) = Except.ok m2 ∧
      m2.updatedColumns = setInsert [] "rating" ∧
      m2.columnValues = aset [("hash", some 1), ("rating", some 0)] "rating" (some 5) ∧
      (∃ db2, modelSave "hash" false [[("hash", some 1), ("rating", some 0)]] m2 =
        SaveResult.ok db2 { m2 with updatedColumns := [] }) ∧
      modelSave "hash" true [[("hash", some 1), ("rating", some 0)]] m2 =
        SaveResult.failed [[("hash", some 1), ("rating", some 0)]] m2 ∧
      (∀ (f : Bool) (db3 : List Row) (m4 : Model), m4.updatedColumns = [] →
        modelSave "hash" f db3 m4 = SaveResult.ok db3 m4) :=
  ⟨by decide,
   rating_dirty_tracking
     { columnValues := [("hash", some 1), ("rating", some 0)],
       updatedColumns := [] } (some 5) [[("hash", some 1), ("rating", some 0)]]
     "hash" (by decide)⟩

/-! ### Screens and the rotation engine (core.py lines 272-442)

A `Screen` (models.py lines 97-159) holds the index attribute `idx`, its
cyclic partition of the shared pool (a `modlist(pool, screen_count,
idx)`, captured by its `step` and `offset` — the partition itself is
never mutated), the wallpaper cursor `_current_wallpaper_offset` and the
three flags.  Screen objects are identified by their creation index
(their position in the stable `screens` storage list); `order` is the
mutable `self.screens` list of the controller, `active` the list
underlying the `active_screens` modlist ( `[]` when all screens are
paused), `curOffset` the `_current_screen_offset`, `selectedId` the
`_selected_screen` reference, and `live` the composite wallpaper list
last pushed to the display by `update_live_screens`. -/

structure Screen where
  idx : Int
  step : Int
  offset : Int
  wpOffset : Int
  current : Bool
  selected : Bool
  paused : Bool
deriving DecidableEq, Repr

instance : Inhabited Screen :=
  ⟨{ idx := 0, step := 0, offset := 0, wpOffset := 0,
     current := false, selected := false, paused := false }⟩

structure SCState where
  pool : List Nat
  screens : List Screen
  order : List Nat
  active : List Nat
  curOffset : Int
  selectedId : Nat
  live : List (Option Nat)
deriving DecidableEq, Repr

/-- Screen object with the given id (storage position). -/
def getS (l : List Screen) (i : Nat) : Screen := l.getD i default

/-- Replace one field of the screen object with the given id. -/
def setS (l : List Screen) (i : Nat) (f : Screen → Screen) : List Screen :=
  l.set i (f (getS l i))

/-- Cursor position into the `active_screens` modlist: `modlist`
indexing with step 1 and offset 0, i.e. `curOffset % len(active)`. -/
def cursorPos (active : List Nat) (off : Int) : Nat :=
  (modlistIndex active.length 1 0 off).toNat

/-- Id of the screen at the active-set cursor (meaningful only when the
active set is non-empty). -/
def cursorId (st : SCState) : Nat :=
  st.active.getD (cursorPos st.active st.curOffset) 0

/-- The property `ScreenController.current_screen` (core.py lines
275-279): the screen at the cursor of the active list, or `None` when
the active list is empty. -/
def currentScreenId (st : SCState) : Option Nat :=
  if st.active.isEmpty then none else some (cursorId st)

/-- `Screen.current_wallpaper`: the partition read at the screen's own
wallpaper cursor. -/
def screenWallpaper (pool : List Nat) (s : Screen) : Option Nat :=
  modlistGetitem pool s.step s.offset s.wpOffset

/-- Composite wallpaper list that `update_live_screens` (core.py lines
332-336) pushes to the display: each screen's current wallpaper in
`self.screens` order. -/
def composite (st : SCState) : List (Option Nat) :=
  st.order.map (fun i => screenWallpaper st.pool (getS st.screens i))

def updateLive (st : SCState) : SCState := { st with live := composite st }

/-- Assignment `screen.current = b`. -/
def setCurrentFlag (st : SCState) (i : Nat) (b : Bool) : SCState :=
  { st with screens := setS st.screens i (fun s => { s with current := b }) }

/-- `ScreenController.next` (core.py lines 348-356). -/
def scNext (st : SCState) : SCState :=
  match currentScreenId st with
  | none => st
  | some cid =>
      let st1 := setCurrentFlag st cid false
      let st2 := { st1 with curOffset := st1.curOffset + 1 }
      let cid2 := cursorId st2
      let st3 := setCurrentFlag st2 cid2 true
      let st4 := { st3 with
        screens := setS st3.screens cid2 (fun s => { s with wpOffset := s.wpOffset + 1 }) }
      updateLive st4

/-- `ScreenController.prev` (core.py lines 358-366). -/
def scPrev (st : SCState) : SCState :=
  match currentScreenId st with
  | none => st
  | some cid =>
      let st1 := { st with
        screens := setS st.screens cid (fun s => { s with wpOffset := s.wpOffset - 1 }) }
      let st2 := setCurrentFlag st1 cid false
      let st3 := { st2 with curOffset := st2.curOffset - 1 }
      let st4 := setCurrentFlag st3 (cursorId st3) true
      updateLive st4

/-- `ScreenController._update_active_screens` (core.py lines 405-416). -/
def updateActiveScreens (st : SCState) : SCState :=
  let st1 := match currentScreenId st with
             | some cid => setCurrentFlag st cid false
             | none => st
  let newActive := st1.order.filter (fun i => !(getS st1.screens i).paused)
  if newActive.isEmpty then { st1 with active := [] }
  else
    let st2 := { st1 with active := newActive }
    setCurrentFlag st2 (cursorId st2) true

/-- The `selected_screen` property setter (core.py lines 286-291):
clear the flag on the old selection, move the reference, set the flag. -/
def setSelected (st : SCState) (tid : Nat) : SCState :=
  let scr1 := setS st.screens st.selectedId (fun s => { s with selected := false })
  let scr2 := setS scr1 tid (fun s => { s with selected := true })
  { st with screens := scr2, selectedId := tid }

/-- `ScreenController.select` (core.py lines 368-379) for an `int`
argument: a plain Python list access `self.screens[idx]`; an
out-of-range index raises before any state is mutated. -/
def scSelect (st : SCState) (i : Int) : SCState :=
  match pyListGet st.order i with
  | none => st
  | some tid => setSelected st tid

/-- `ScreenController.select_next` (core.py lines 381-385). -/
def scSelectNext (st : SCState) : SCState :=
  let i := (getS st.screens st.selectedId).idx
  setSelected st
    (st.order.getD (modlistIndex st.screens.length 1 0 (i + 1)).toNat 0)

/-- `ScreenController.select_prev` (core.py lines 387-391). -/
def scSelectPrev (st : SCState) : SCState :=
  let i := (getS st.screens st.selectedId).idx
  setSelected st
    (st.order.getD (modlistIndex st.screens.length 1 0 (i - 1)).toNat 0)

/-- Common body of the pause commands (core.py lines 393-403): assign
the selected screen's `paused` flag, then regenerate the active list. -/
def setPausedSelected (st : SCState) (b : Bool) : SCState :=
  updateActiveScreens
    { st with screens := setS st.screens st.selectedId (fun s => { s with paused := b }) }

def scPauseSelected (st : SCState) : SCState := setPausedSelected st true

def scUnpauseSelected (st : SCState) : SCState := setPausedSelected st false

def scTogglePause (st : SCState) : SCState :=
  setPausedSelected st (!(getS st.screens st.selectedId).paused)

/-- `ScreenController.cycle_screens` (core.py lines 338-346): add one to
every screen's `idx` modulo the count, rotate `self.screens` left by
one, regenerate the active list, re-select, re-render. -/
def scCycleScreens (st : SCState) : SCState :=
  let n := st.screens.length
  let st1 := { st with
    screens := st.screens.map (fun s => { s with idx := (s.idx + 1) % (n : Int) }),
    order := st.order.drop 1 ++ st.order.take 1 }
  let st2 := updateActiveScreens st1
  updateLive (scSelectPrev st2)

/-- `ScreenController.__init__` (core.py lines 293-316) for a detected
screen count and a non-empty wallpaper pool: one screen per index with
the cyclic partition `modlist(pool, count, idx)`, all screens active,
cursor 0, screen at the cursor made current, screen 0 selected. -/
def scInitBase (count : Nat) (pool : List Nat) : SCState :=
  { pool := pool,
    screens := (List.range count).map (fun (i : Nat) =>
      { idx := (i : Int), step := (count : Int), offset := (i : Int), wpOffset := 0,
        current := false, selected := false, paused := false : Screen }),
    order := List.range count, active := List.range count,
    curOffset := 0, selectedId := 0, live := [] }

def scInit (count : Nat) (pool : List Nat) : SCState :=
  let st := scInitBase count pool
  let st1 := match currentScreenId st with
             | some cid => setCurrentFlag st cid true
             | none => st
  { st1 with
      selectedId := 0,
      screens := setS st1.screens 0 (fun s => { s with selected := true }) }

/-- User-command events dispatched to the controller by the event loop. -/
inductive Op where
  | next | prev | cycleScreens | selectNext | selectPrev
  | select : Int → Op
  | pauseSelected | unpauseSelected | togglePause
deriving DecidableEq, Repr

def scStep (op : Op) (st : SCState) : SCState :=
  match op with
  | Op.next => scNext st
  | Op.prev => scPrev st
  | Op.cycleScreens => scCycleScreens st
  | Op.selectNext => scSelectNext st
  | Op.selectPrev => scSelectPrev st
  | Op.select i => scSelect st i
  | Op.pauseSelected => scPauseSelected st
  | Op.unpauseSelected => scUnpauseSelected st
  | Op.togglePause => scTogglePause st

/-- States reachable from startup: `scInit` followed by any sequence of
controller commands. -/
def scRun (count : Nat) (pool : List Nat) (ops : List Op) : SCState :=
  ops.foldl (fun st op => scStep op st) (scInit count pool)

/-! ### Toolkit lemmas for screen-list updates -/

theorem length_setS (l : List Screen) (i : Nat) (f : Screen → Screen) :
    (setS l i f).length = l.length := by
  simp [setS]

theorem getS_setS (l : List Screen) (i : Nat) (f : Screen → Screen) (j : Nat) :
    getS (setS l i f) j =
      if i < l.length ∧ j = i then f (getS l i) else getS l j := by
  by_cases hi : i < l.length
  · by_cases hj : j = i
    · subst hj
      rw [if_pos ⟨hi, rfl⟩]
      unfold getS setS
      rw [List.getD_eq_getElem _ _ (by simpa using hi)]
      exact List.getElem_set_self _
    · rw [if_neg (by tauto)]
      unfold getS setS
      by_cases hjl : j < l.length
      · rw [List.getD_eq_getElem _ _ (by simpa using hjl),
          List.getD_eq_getElem _ _ hjl]
        exact List.getElem_set_of_ne (fun hh => hj hh.symm) _ _
      · rw [List.getD_eq_default _ _ (by simpa using not_lt.mp hjl),
          List.getD_eq_default _ _ (not_lt.mp hjl)]
  · rw [if_neg (by tauto)]
    unfold setS
    rw [List.set_eq_of_length_le (not_lt.mp hi)]

theorem getS_map (l : List Screen) (g : Screen → Screen) (j : Nat)
    (h : j < l.length) : getS (l.map g) j = g (getS l j) := by
  unfold getS
  rw [List.getD_eq_getElem _ _ (by simpa using h), List.getD_eq_getElem _ _ h,
    List.getElem_map]

theorem getD_mem_of_lt (l : List Nat) (i : Nat) (h : i < l.length) :
    l.getD i 0 ∈ l := by
  rw [List.getD_eq_getElem _ _ h]
  exact List.getElem_mem h

theorem cursorPos_lt (active : List Nat) (off : Int) (h : active ≠ []) :
    cursorPos active off < active.length := by
  have hlen : 0 < active.length := List.length_pos.mpr h
  obtain ⟨h0, hlt⟩ := modlistIndex_nonneg_lt active.length 1 0 off hlen
  unfold cursorPos
  omega

theorem cursorId_mem (st : SCState) (h : st.active ≠ []) :
    cursorId st ∈ st.active :=
  getD_mem_of_lt _ _ (cursorPos_lt _ _ h)

theorem pyListGet_mem {α : Type} (l : List α) (i : Int) (x : α)
    (h : pyListGet l i = some x) : x ∈ l := by
  unfold pyListGet at h
  by_cases h0 : 0 ≤ i
  · rw [if_pos h0] at h
    by_cases hlt : i.toNat < l.length
    · rw [dif_pos hlt] at h
      cases h
      exact List.get_mem l _ _
    · rw [dif_neg hlt] at h
      cases h
  · rw [if_neg h0] at h
    by_cases hj : 0 ≤ (l.length : Int) + i
    · rw [if_pos hj] at h
      by_cases hlt : ((l.length : Int) + i).toNat < l.length
      · rw [dif_pos hlt] at h
        cases h
        exact List.get_mem l _ _
      · rw [dif_neg hlt] at h
        cases h
    · rw [if_neg hj] at h
      cases h

/-! ### The reachability invariant of the rotation engine -/

/-- Consistency invariant of `ScreenController` states: the screen count
is positive and never changes, `self.screens` (the `order` list) is a
list of valid screen ids of full length, `active_screens` is exactly the
non-paused screens in `self.screens` order, the `_selected_screen`
reference is valid and marks exactly one screen selected, and the
`current` flags hold on exactly the screen at the active-set cursor
(on no screen when the active set is empty). -/
structure Inv (st : SCState) : Prop where
  lenPos : 0 < st.screens.length
  orderLen : st.order.length = st.screens.length
  orderBound : ∀ i ∈ st.order, i < st.screens.length
  activeFilter : st.active = st.order.filter (fun i => !(getS st.screens i).paused)
  selLt : st.selectedId < st.screens.length
  selChar : ∀ j, j < st.screens.length →
    ((getS st.screens j).selected = true ↔ j = st.selectedId)
  curChar : ∀ j, j < st.screens.length →
    ((getS st.screens j).current = true ↔ (st.active ≠ [] ∧ j = cursorId st))

/-- Weakening of `Inv` holding right after a `paused` mutation or a
reordering of `self.screens`, before `_update_active_screens` has
regenerated the (now possibly stale) active list. -/
structure PreInv (st : SCState) : Prop where
  lenPos : 0 < st.screens.length
  orderLen : st.order.length = st.screens.length
  orderBound : ∀ i ∈ st.order, i < st.screens.length
  activeBound : ∀ i ∈ st.active, i < st.screens.length
  selLt : st.selectedId < st.screens.length
  selChar : ∀ j, j < st.screens.length →
    ((getS st.screens j).selected = true ↔ j = st.selectedId)
  curChar : ∀ j, j < st.screens.length →
    ((getS st.screens j).current = true ↔ (st.active ≠ [] ∧ j = cursorId st))

theorem Inv.activeBound {st : SCState} (h : Inv st) :
    ∀ i ∈ st.active, i < st.screens.length := by
  intro i hi
  rw [h.activeFilter] at hi
  exact h.orderBound i (List.mem_of_mem_filter hi)

theorem Inv.toPre {st : SCState} (h : Inv st) : PreInv st :=
  ⟨h.lenPos, h.orderLen, h.orderBound, h.activeBound, h.selLt, h.selChar,
    h.curChar⟩

theorem Inv.cursorId_lt {st : SCState} (h : Inv st) (hne : st.active ≠ []) :
    cursorId st < st.screens.length :=
  h.activeBound _ (cursorId_mem st hne)

theorem PreInv.cursorBound {st : SCState} (h : PreInv st) (hne : st.active ≠ []) :
    cursorId st < st.screens.length :=
  h.activeBound _ (cursorId_mem st hne)

theorem getS_setS_self (l : List Screen) (i : Nat) (f : Screen → Screen)
    (hi : i < l.length) : getS (setS l i f) i = f (getS l i) := by
  rw [getS_setS, if_pos ⟨hi, rfl⟩]

theorem getS_setS_ne (l : List Screen) (i j : Nat) (f : Screen → Screen)
    (hj : j ≠ i) : getS (setS l i f) j = getS l j := by
  rw [getS_setS, if_neg (fun hc => hj hc.2)]

theorem getS_setS_proj {α : Type} (l : List Screen) (i : Nat)
    (f : Screen → Screen) (j : Nat) (g : Screen → α)
    (hf : ∀ s, g (f s) = g s) :
    g (getS (setS l i f) j) = g (getS l j) := by
  rw [getS_setS]
  by_cases hc : i < l.length ∧ j = i
  · rw [if_pos hc, hc.2]
    exact hf _
  · rw [if_neg hc]

/-- The clearing phase of `_update_active_screens` (core.py lines
407-408): `if self.current_screen: self.current_screen.current = False`. -/
def clearCur (st : SCState) : SCState :=
  if st.active.isEmpty then st else setCurrentFlag st (cursorId st) false

theorem updateActive_eq (st : SCState) :
    updateActiveScreens st =
      (let st1 := clearCur st
       let newActive := st1.order.filter (fun i => !(getS st1.screens i).paused)
       if newActive.isEmpty then { st1 with active := [] }
       else setCurrentFlag { st1 with active := newActive }
              (cursorId { st1 with active := newActive }) true) := by
  unfold updateActiveScreens clearCur currentScreenId
  by_cases hA : st.active.isEmpty <;> simp [hA]

theorem clearCur_order (st : SCState) : (clearCur st).order = st.order := by
  unfold clearCur
  split <;> rfl

theorem clearCur_active (st : SCState) : (clearCur st).active = st.active := by
  unfold clearCur
  split <;> rfl

theorem clearCur_curOffset (st : SCState) :
    (clearCur st).curOffset = st.curOffset := by
  unfold clearCur
  split <;> rfl

theorem clearCur_selectedId (st : SCState) :
    (clearCur st).selectedId = st.selectedId := by
  unfold clearCur
  split <;> rfl

theorem clearCur_pool (st : SCState) : (clearCur st).pool = st.pool := by
  unfold clearCur
  split <;> rfl

theorem setCurrentFlag_screens (st : SCState) (i : Nat) (b : Bool) :
    (setCurrentFlag st i b).screens =
      setS st.screens i (fun s => { s with current := b }) := rfl

theorem setCurrentFlag_order (st : SCState) (i : Nat) (b : Bool) :
    (setCurrentFlag st i b).order = st.order := rfl

theorem setCurrentFlag_active (st : SCState) (i : Nat) (b : Bool) :
    (setCurrentFlag st i b).active = st.active := rfl

theorem setCurrentFlag_curOffset (st : SCState) (i : Nat) (b : Bool) :
    (setCurrentFlag st i b).curOffset = st.curOffset := rfl

theorem setCurrentFlag_selectedId (st : SCState) (i : Nat) (b : Bool) :
    (setCurrentFlag st i b).selectedId = st.selectedId := rfl

theorem setCurrentFlag_pool (st : SCState) (i : Nat) (b : Bool) :
    (setCurrentFlag st i b).pool = st.pool := rfl

theorem clearCur_len (st : SCState) :
    (clearCur st).screens.length = st.screens.length := by
  unfold clearCur
  split
  · rfl
  · rw [setCurrentFlag_screens, length_setS]

theorem clearCur_proj {α : Type} (st : SCState) (j : Nat) (g : Screen → α)
    (hg : ∀ s, g { s with current := false } = g s) :
    g (getS (clearCur st).screens j) = g (getS st.screens j) := by
  unfold clearCur
  split
  · rfl
  · exact getS_setS_proj _ _ _ _ g hg

theorem clearCur_current (st : SCState) (h : PreInv st) (j : Nat)
    (hj : j < st.screens.length) :
    (getS (clearCur st).screens j).current = false := by
  unfold clearCur
  by_cases hA : st.active.isEmpty
  · rw [if_pos hA]
    have hnil : st.active = [] := List.isEmpty_iff.mp hA
    cases hcur : (getS st.screens j).current
    · rfl
    · exact absurd ((h.curChar j hj).mp hcur).1 (by simp [hnil])
  · rw [if_neg hA]
    have hne : st.active ≠ [] := fun hnil => hA (by simp [hnil])
    have hcid : cursorId st < st.screens.length := h.cursorBound hne
    rw [setCurrentFlag_screens]
    by_cases hj2 : j = cursorId st
    · subst hj2
      rw [getS_setS_self _ _ _ hcid]
    · rw [getS_setS_ne _ _ _ _ hj2]
      cases hcur : (getS st.screens j).current
      · rfl
      · exact absurd ((h.curChar j hj).mp hcur).2 hj2

/-- Regenerating the active list from a consistent-but-stale state
restores the full invariant (`_update_active_screens`). -/
theorem inv_updateActiveScreens (st : SCState) (h : PreInv st) :
    Inv (updateActiveScreens st) := by
  rw [updateActive_eq]
  show Inv
    (let st1 := clearCur st
     let newActive := st1.order.filter (fun i => !(getS st1.screens i).paused)
     if newActive.isEmpty then { st1 with active := [] }
     else setCurrentFlag { st1 with active := newActive }
            (cursorId { st1 with active := newActive }) true)
  set st1 := clearCur st with hst1
  set newActive := st1.order.filter (fun i => !(getS st1.screens i).paused) with hNA
  have hlen1 : st1.screens.length = st.screens.length := clearCur_len st
  have hNA2 : newActive = st.order.filter (fun i => !(getS st.screens i).paused) := by
    rw [hNA, clearCur_order]
    refine List.filter_congr (fun a _ => ?_)
    show (!(getS st1.screens a).paused) = (!(getS st.screens a).paused)
    rw [clearCur_proj st a Screen.paused (fun s => rfl)]
  by_cases hE : newActive.isEmpty
  · rw [if_pos hE]
    have hnil : newActive = [] := List.isEmpty_iff.mp hE
    refine ⟨?_, ?_, ?_, ?_, ?_, ?_, ?_⟩
    · show 0 < st1.screens.length
      rw [hlen1]
      exact h.lenPos
    · show st1.order.length = st1.screens.length
      rw [hlen1, clearCur_order]
      exact h.orderLen
    · show ∀ i ∈ st1.order, i < st1.screens.length
      rw [hlen1, clearCur_order]
      exact h.orderBound
    · show ([] : List Nat) = st1.order.filter (fun i => !(getS st1.screens i).paused)
      rw [← hNA]
      exact hnil.symm
    · show st1.selectedId < st1.screens.length
      rw [hlen1, clearCur_selectedId]
      exact h.selLt
    · intro j hj
      show (getS st1.screens j).selected = true ↔ j = st1.selectedId
      rw [clearCur_selectedId,
        clearCur_proj st j Screen.selected (fun s => rfl)]
      exact h.selChar j (by rw [← hlen1]; exact hj)
    · intro j hj
      show (getS st1.screens j).current = true ↔
        (([] : List Nat) ≠ [] ∧ j = cursorId { st1 with active := [] })
      rw [clearCur_current st h j (by rw [← hlen1]; exact hj)]
      simp
  · rw [if_neg hE]
    have hne2 : newActive ≠ [] := fun hnil => hE (by simp [hnil])
    set st2 : SCState := { st1 with active := newActive } with hst2
    set cid2 := cursorId st2 with hcid2
    have hcid2mem : cid2 ∈ newActive := cursorId_mem st2 hne2
    have hcid2lt : cid2 < st.screens.length := by
      refine h.orderBound cid2 ?_
      have := hcid2mem
      rw [hNA2] at this
      exact List.mem_of_mem_filter this
    have hcid2lt2 : cid2 < st2.screens.length := by
      show cid2 < st1.screens.length
      rw [hlen1]
      exact hcid2lt
    have hscr2 : st2.screens = st1.screens := rfl
    have hord2 : st2.order = st1.order := rfl
    have hsel2 : st2.selectedId = st1.selectedId := rfl
    refine ⟨?_, ?_, ?_, ?_, ?_, ?_, ?_⟩
    · rw [setCurrentFlag_screens, length_setS, hscr2, hlen1]
      exact h.lenPos
    · rw [setCurrentFlag_screens, length_setS, setCurrentFlag_order, hscr2,
        hord2, hlen1, clearCur_order]
      exact h.orderLen
    · rw [setCurrentFlag_screens, length_setS, setCurrentFlag_order, hscr2,
        hord2, hlen1, clearCur_order]
      exact h.orderBound
    · rw [setCurrentFlag_active, setCurrentFlag_screens, setCurrentFlag_order]
      have hfil : st2.order.filter
          (fun i => !(getS (setS st2.screens cid2
            (fun s => { s with current := true })) i).paused) =
          st1.order.filter (fun i => !(getS st1.screens i).paused) := by
        rw [hord2]
        refine List.filter_congr (fun a _ => ?_)
        rw [getS_setS_proj st2.screens cid2
          (fun s => { s with current := true }) a Screen.paused (fun s => rfl),
          hscr2]
      rw [hfil, ← hNA]
    · rw [setCurrentFlag_screens, length_setS, setCurrentFlag_selectedId,
        hscr2, hsel2, hlen1, clearCur_selectedId]
      exact h.selLt
    · intro j hj
      rw [setCurrentFlag_screens, length_setS] at hj
      rw [setCurrentFlag_screens, setCurrentFlag_selectedId,
        getS_setS_proj st2.screens cid2 (fun s => { s with current := true }) j
          Screen.selected (fun s => rfl),
        hscr2, hsel2, clearCur_selectedId,
        clearCur_proj st j Screen.selected (fun s => rfl)]
      exact h.selChar j (by rw [hscr2, hlen1] at hj; exact hj)
    · intro j hj
      rw [setCurrentFlag_screens, length_setS] at hj
      have hcur : cursorId (setCurrentFlag st2 cid2 true) = cid2 := rfl
      rw [setCurrentFlag_screens, setCurrentFlag_active, hcur]
      by_cases hj2 : j = cid2
      · subst hj2
        rw [getS_setS_self _ _ _ hcid2lt2]
        have hact2 : st2.active = newActive := rfl
        rw [hact2]
        simp [hne2]
      · rw [getS_setS_ne _ _ _ _ hj2, hscr2,
          clearCur_current st h j (by rw [hscr2, hlen1] at hj; exact hj)]
        simp [hj2]

theorem setSelected_screens (st : SCState) (tid : Nat) :
    (setSelected st tid).screens =
      setS (setS st.screens st.selectedId (fun s => { s with selected := false }))
        tid (fun s => { s with selected := true }) := rfl

theorem setSelected_len (st : SCState) (tid : Nat) :
    (setSelected st tid).screens.length = st.screens.length := by
  rw [setSelected_screens, length_setS, length_setS]

theorem setSelected_paused (st : SCState) (tid : Nat) (j : Nat) :
    (getS (setSelected st tid).screens j).paused = (getS st.screens j).paused := by
  rw [setSelected_screens,
    getS_setS_proj _ tid (fun s => { s with selected := true }) j Screen.paused
      (fun s => rfl),
    getS_setS_proj _ st.selectedId (fun s => { s with selected := false }) j
      Screen.paused (fun s => rfl)]

theorem setSelected_current (st : SCState) (tid : Nat) (j : Nat) :
    (getS (setSelected st tid).screens j).current = (getS st.screens j).current := by
  rw [setSelected_screens,
    getS_setS_proj _ tid (fun s => { s with selected := true }) j Screen.current
      (fun s => rfl),
    getS_setS_proj _ st.selectedId (fun s => { s with selected := false }) j
      Screen.current (fun s => rfl)]

theorem inv_setSelected (st : SCState) (tid : Nat) (h : Inv st)
    (htid : tid < st.screens.length) : Inv (setSelected st tid) := by
  have hsel1 : st.selectedId < (setS st.screens st.selectedId
      (fun s => { s with selected := false })).length := by
    rw [length_setS]
    exact h.selLt
  have htid1 : tid < (setS st.screens st.selectedId
      (fun s => { s with selected := false })).length := by
    rw [length_setS]
    exact htid
  refine ⟨?_, ?_, ?_, ?_, ?_, ?_, ?_⟩
  · rw [setSelected_len]
    exact h.lenPos
  · show st.order.length = _
    rw [setSelected_len]
    exact h.orderLen
  · show ∀ i ∈ st.order, i < (setSelected st tid).screens.length
    rw [setSelected_len]
    exact h.orderBound
  · show st.active = st.order.filter
      (fun i => !(getS (setSelected st tid).screens i).paused)
    rw [h.activeFilter]
    refine (List.filter_congr (fun a _ => ?_)).symm
    rw [setSelected_paused]
  · show tid < (setSelected st tid).screens.length
    rw [setSelected_len]
    exact htid
  · intro j hj
    rw [setSelected_len] at hj
    show (getS (setSelected st tid).screens j).selected = true ↔ j = tid
    rw [setSelected_screens]
    by_cases hjt : j = tid
    · subst hjt
      rw [getS_setS_self _ _ _ htid1]
      simp
    · rw [getS_setS_ne _ _ _ _ hjt]
      by_cases hjs : j = st.selectedId
      · subst hjs
        rw [getS_setS_self _ _ _ h.selLt]
        simp [hjt]
      · rw [getS_setS_ne _ _ _ _ hjs]
        constructor
        · intro hx
          exact absurd ((h.selChar j hj).mp hx) hjs
        · intro hx
          exact absurd hx hjt
  · intro j hj
    rw [setSelected_len] at hj
    have hcur : cursorId (setSelected st tid) = cursorId st := rfl
    have hact : (setSelected st tid).active = st.active := rfl
    show (getS (setSelected st tid).screens j).current = true ↔ _
    rw [setSelected_current, hcur, hact]
    exact h.curChar j hj

theorem inv_scSelectNext (st : SCState) (h : Inv st) : Inv (scSelectNext st) := by
  unfold scSelectNext
  refine inv_setSelected st _ h ?_
  refine h.orderBound _ (getD_mem_of_lt _ _ ?_)
  rw [h.orderLen]
  obtain ⟨h0, hlt⟩ := modlistIndex_nonneg_lt st.screens.length 1 0
    ((getS st.screens st.selectedId).idx + 1) h.lenPos
  omega

theorem inv_scSelectPrev (st : SCState) (h : Inv st) : Inv (scSelectPrev st) := by
  unfold scSelectPrev
  refine inv_setSelected st _ h ?_
  refine h.orderBound _ (getD_mem_of_lt _ _ ?_)
  rw [h.orderLen]
  obtain ⟨h0, hlt⟩ := modlistIndex_nonneg_lt st.screens.length 1 0
    ((getS st.screens st.selectedId).idx - 1) h.lenPos
  omega

theorem inv_scSelect (st : SCState) (i : Int) (h : Inv st) : Inv (scSelect st i) := by
  unfold scSelect
  cases hg : pyListGet st.order i with
  | none => exact h
  | some tid =>
      exact inv_setSelected st tid h (h.orderBound tid (pyListGet_mem _ _ _ hg))

theorem preInv_setPaused (st : SCState) (b : Bool) (h : Inv st) :
    PreInv { st with
      screens := setS st.screens st.selectedId (fun s => { s with paused := b }) } := by
  have hlen : (setS st.screens st.selectedId
      (fun s => { s with paused := b })).length = st.screens.length :=
    length_setS _ _ _
  refine ⟨?_, ?_, ?_, ?_, ?_, ?_, ?_⟩
  · show 0 < (setS st.screens st.selectedId
      (fun s => { s with paused := b })).length
    rw [hlen]
    exact h.lenPos
  · show st.order.length = (setS st.screens st.selectedId
      (fun s => { s with paused := b })).length
    rw [hlen]
    exact h.orderLen
  · show ∀ i ∈ st.order, i < (setS st.screens st.selectedId
      (fun s => { s with paused := b })).length
    rw [hlen]
    exact h.orderBound
  · show ∀ i ∈ st.active, i < (setS st.screens st.selectedId
      (fun s => { s with paused := b })).length
    rw [hlen]
    exact h.activeBound
  · show st.selectedId < (setS st.screens st.selectedId
      (fun s => { s with paused := b })).length
    rw [hlen]
    exact h.selLt
  · intro j hj
    rw [hlen] at hj
    show (getS (setS st.screens st.selectedId
      (fun s => { s with paused := b })) j).selected = true ↔ j = st.selectedId
    rw [getS_setS_proj _ st.selectedId (fun s => { s with paused := b }) j
      Screen.selected (fun s => rfl)]
    exact h.selChar j hj
  · intro j hj
    rw [hlen] at hj
    show (getS (setS st.screens st.selectedId
        (fun s => { s with paused := b })) j).current = true ↔
      (st.active ≠ [] ∧ j = cursorId st)
    rw [getS_setS_proj _ st.selectedId (fun s => { s with paused := b }) j
      Screen.current (fun s => rfl)]
    exact h.curChar j hj

theorem inv_setPausedSelected (st : SCState) (b : Bool) (h : Inv st) :
    Inv (setPausedSelected st b) :=
  inv_updateActiveScreens _ (preInv_setPaused st b h)

theorem inv_updateLive (st : SCState) (h : Inv st) : Inv (updateLive st) :=
  ⟨h.lenPos, h.orderLen, h.orderBound, h.activeFilter, h.selLt, h.selChar,
    h.curChar⟩

theorem preInv_cycleStage (st : SCState) (h : Inv st) :
    PreInv { st with
      screens := st.screens.map
        (fun s => { s with idx := (s.idx + 1) % (st.screens.length : Int) }),
      order := st.order.drop 1 ++ st.order.take 1 } := by
  have hlen : (st.screens.map
      (fun s => { s with idx := (s.idx + 1) % (st.screens.length : Int) })).length =
      st.screens.length := List.length_map _ _
  have hordmem : ∀ i ∈ st.order.drop 1 ++ st.order.take 1, i ∈ st.order := by
    intro i hi
    rcases List.mem_append.mp hi with h1 | h1
    · exact List.mem_of_mem_drop h1
    · exact List.mem_of_mem_take h1
  refine ⟨?_, ?_, ?_, ?_, ?_, ?_, ?_⟩
  · show 0 < (st.screens.map
      (fun s => { s with idx := (s.idx + 1) % (st.screens.length : Int) })).length
    rw [hlen]
    exact h.lenPos
  · show (st.order.drop 1 ++ st.order.take 1).length = (st.screens.map
      (fun s => { s with idx := (s.idx + 1) % (st.screens.length : Int) })).length
    rw [hlen, List.length_append, List.length_drop, List.length_take, ← h.orderLen]
    omega
  · intro i hi
    show i < (st.screens.map
      (fun s => { s with idx := (s.idx + 1) % (st.screens.length : Int) })).length
    rw [hlen]
    exact h.orderBound i (hordmem i hi)
  · intro i hi
    show i < (st.screens.map
      (fun s => { s with idx := (s.idx + 1) % (st.screens.length : Int) })).length
    rw [hlen]
    exact h.activeBound i hi
  · show st.selectedId < (st.screens.map
      (fun s => { s with idx := (s.idx + 1) % (st.screens.length : Int) })).length
    rw [hlen]
    exact h.selLt
  · intro j hj
    rw [hlen] at hj
    show (getS (st.screens.map
      (fun s => { s with idx := (s.idx + 1) % (st.screens.length : Int) })) j).selected
        = true ↔ j = st.selectedId
    rw [getS_map _ _ j hj]
    exact h.selChar j hj
  · intro j hj
    rw [hlen] at hj
    show (getS (st.screens.map
      (fun s => { s with idx := (s.idx + 1) % (st.screens.length : Int) })) j).current
        = true ↔ (st.active ≠ [] ∧ j = cursorId st)
    rw [getS_map _ _ j hj]
    exact h.curChar j hj

theorem inv_scCycleScreens (st : SCState) (h : Inv st) :
    Inv (scCycleScreens st) :=
  inv_updateLive _ (inv_scSelectPrev _
    (inv_updateActiveScreens _ (preInv_cycleStage st h)))

/-- Id of the screen that the cursor reaches after `+= 1`. -/
def nextCid (st : SCState) : Nat :=
  st.active.getD (cursorPos st.active (st.curOffset + 1)) 0

/-- Id of the screen that the cursor reaches after `-= 1`. -/
def prevCid (st : SCState) : Nat :=
  st.active.getD (cursorPos st.active (st.curOffset - 1)) 0

theorem scNext_empty (st : SCState) (hA : st.active.isEmpty = true) :
    scNext st = st := by
  unfold scNext currentScreenId
  rw [if_pos hA]

theorem scPrev_empty (st : SCState) (hA : st.active.isEmpty = true) :
    scPrev st = st := by
  unfold scPrev currentScreenId
  rw [if_pos hA]

theorem scNext_eq (st : SCState) (hA : ¬ st.active.isEmpty = true) :
    scNext st = updateLive { st with
      screens := setS (setS (setS st.screens (cursorId st)
            (fun s => { s with current := false }))
          (nextCid st) (fun s => { s with current := true }))
        (nextCid st) (fun s => { s with wpOffset := s.wpOffset + 1 }),
      curOffset := st.curOffset + 1 } := by
  unfold scNext currentScreenId
  rw [if_neg hA]
  rfl

theorem scPrev_eq (st : SCState) (hA : ¬ st.active.isEmpty = true) :
    scPrev st = updateLive { st with
      screens := setS (setS (setS st.screens (cursorId st)
            (fun s => { s with wpOffset := s.wpOffset - 1 }))
          (cursorId st) (fun s => { s with current := false }))
        (prevCid st) (fun s => { s with current := true }),
      curOffset := st.curOffset - 1 } := by
  unfold scPrev currentScreenId
  rw [if_neg hA]
  rfl

theorem inv_scNext (st : SCState) (h : Inv st) : Inv (scNext st) := by
  by_cases hA : st.active.isEmpty
  · rw [scNext_empty st hA]
    exact h
  · rw [scNext_eq st hA]
    have hne : st.active ≠ [] := fun hnil => hA (by simp [hnil])
    have hcid : cursorId st < st.screens.length := h.cursorId_lt hne
    have hncidmem : nextCid st ∈ st.active :=
      getD_mem_of_lt _ _ (cursorPos_lt _ _ hne)
    have hncid : nextCid st < st.screens.length := h.activeBound _ hncidmem
    refine inv_updateLive _ ?_
    set scrA := setS st.screens (cursorId st)
      (fun s => { s with current := false }) with hscrA
    set scrB := setS scrA (nextCid st)
      (fun s => { s with current := true }) with hscrB
    set scrC := setS scrB (nextCid st)
      (fun s => { s with wpOffset := s.wpOffset + 1 }) with hscrC
    have hlenA : scrA.length = st.screens.length := length_setS _ _ _
    have hlenB : scrB.length = st.screens.length := by
      rw [hscrB, length_setS, hlenA]
    have hlenC : scrC.length = st.screens.length := by
      rw [hscrC, length_setS, hlenB]
    have hpau : ∀ j, (getS scrC j).paused = (getS st.screens j).paused := by
      intro j
      rw [hscrC, getS_setS_proj scrB (nextCid st)
          (fun s => { s with wpOffset := s.wpOffset + 1 }) j Screen.paused
          (fun s => rfl),
        hscrB, getS_setS_proj scrA (nextCid st)
          (fun s => { s with current := true }) j Screen.paused (fun s => rfl),
        hscrA, getS_setS_proj st.screens (cursorId st)
          (fun s => { s with current := false }) j Screen.paused (fun s => rfl)]
    have hselp : ∀ j, (getS scrC j).selected = (getS st.screens j).selected := by
      intro j
      rw [hscrC, getS_setS_proj scrB (nextCid st)
          (fun s => { s with wpOffset := s.wpOffset + 1 }) j Screen.selected
          (fun s => rfl),
        hscrB, getS_setS_proj scrA (nextCid st)
          (fun s => { s with current := true }) j Screen.selected (fun s => rfl),
        hscrA, getS_setS_proj st.screens (cursorId st)
          (fun s => { s with current := false }) j Screen.selected (fun s => rfl)]
    have hcurC : ∀ j, j < st.screens.length →
        ((getS scrC j).current = true ↔ j = nextCid st) := by
      intro j hj
      by_cases hjn : j = nextCid st
      · subst hjn
        rw [hscrC, getS_setS_self _ _ _ (by rw [hlenB]; exact hncid),
          hscrB, getS_setS_self _ _ _ (by rw [hlenA]; exact hncid)]
        simp
      · rw [hscrC, getS_setS_ne _ _ _ _ hjn, hscrB, getS_setS_ne _ _ _ _ hjn,
          hscrA]
        by_cases hjc : j = cursorId st
        · subst hjc
          rw [getS_setS_self _ _ _ hcid]
          simp [hjn]
        · rw [getS_setS_ne _ _ _ _ hjc]
          constructor
          · intro hx
            exact absurd ((h.curChar j hj).mp hx).2 hjc
          · intro hx
            exact absurd hx hjn
    refine ⟨?_, ?_, ?_, ?_, ?_, ?_, ?_⟩
    · show 0 < scrC.length
      rw [hlenC]
      exact h.lenPos
    · show st.order.length = scrC.length
      rw [hlenC]
      exact h.orderLen
    · intro i hi
      show i < scrC.length
      rw [hlenC]
      exact h.orderBound i hi
    · show st.active = st.order.filter (fun i => !(getS scrC i).paused)
      rw [h.activeFilter]
      refine (List.filter_congr (fun a _ => ?_)).symm
      rw [hpau]
    · show st.selectedId < scrC.length
      rw [hlenC]
      exact h.selLt
    · intro j hj
      rw [hlenC] at hj
      show (getS scrC j).selected = true ↔ j = st.selectedId
      rw [hselp]
      exact h.selChar j hj
    · intro j hj
      rw [hlenC] at hj
      show (getS scrC j).current = true ↔ (st.active ≠ [] ∧ j = nextCid st)
      rw [hcurC j hj]
      constructor
      · intro hx
        exact ⟨hne, hx⟩
      · intro hx
        exact hx.2

theorem inv_scPrev (st : SCState) (h : Inv st) : Inv (scPrev st) := by
  by_cases hA : st.active.isEmpty
  · rw [scPrev_empty st hA]
    exact h
  · rw [scPrev_eq st hA]
    have hne : st.active ≠ [] := fun hnil => hA (by simp [hnil])
    have hcid : cursorId st < st.screens.length := h.cursorId_lt hne
    have hpcidmem : prevCid st ∈ st.active :=
      getD_mem_of_lt _ _ (cursorPos_lt _ _ hne)
    have hpcid : prevCid st < st.screens.length := h.activeBound _ hpcidmem
    refine inv_updateLive _ ?_
    set scrA := setS st.screens (cursorId st)
      (fun s => { s with wpOffset := s.wpOffset - 1 }) with hscrA
    set scrB := setS scrA (cursorId st)
      (fun s => { s with current := false }) with hscrB
    set scrC := setS scrB (prevCid st)
      (fun s => { s with current := true }) with hscrC
    have hlenA : scrA.length = st.screens.length := length_setS _ _ _
    have hlenB : scrB.length = st.screens.length := by
      rw [hscrB, length_setS, hlenA]
    have hlenC : scrC.length = st.screens.length := by
      rw [hscrC, length_setS, hlenB]
    have hpau : ∀ j, (getS scrC j).paused = (getS st.screens j).paused := by
      intro j
      rw [hscrC, getS_setS_proj scrB (prevCid st)
          (fun s => { s with current := true }) j Screen.paused (fun s => rfl),
        hscrB, getS_setS_proj scrA (cursorId st)
          (fun s => { s with current := false }) j Screen.paused (fun s => rfl),
        hscrA, getS_setS_proj st.screens (cursorId st)
          (fun s => { s with wpOffset := s.wpOffset - 1 }) j Screen.paused
          (fun s => rfl)]
    have hselp : ∀ j, (getS scrC j).selected = (getS st.screens j).selected := by
      intro j
      rw [hscrC, getS_setS_proj scrB (prevCid st)
          (fun s => { s with current := true }) j Screen.selected (fun s => rfl),
        hscrB, getS_setS_proj scrA (cursorId st)
          (fun s => { s with current := false }) j Screen.selected (fun s => rfl),
        hscrA, getS_setS_proj st.screens (cursorId st)
          (fun s => { s with wpOffset := s.wpOffset - 1 }) j Screen.selected
          (fun s => rfl)]
    have hcurC : ∀ j, j < st.screens.length →
        ((getS scrC j).current = true ↔ j = prevCid st) := by
      intro j hj
      by_cases hjp : j = prevCid st
      · subst hjp
        rw [hscrC, getS_setS_self _ _ _ (by rw [hlenB]; exact hpcid)]
        simp
      · rw [hscrC, getS_setS_ne _ _ _ _ hjp, hscrB]
        by_cases hjc : j = cursorId st
        · subst hjc
          rw [getS_setS_self _ _ _ (by rw [hlenA]; exact hcid)]
          simp [hjp]
        · rw [getS_setS_ne _ _ _ _ hjc, hscrA,
            getS_setS_proj st.screens (cursorId st)
              (fun s => { s with wpOffset := s.wpOffset - 1 }) j Screen.current
              (fun s => rfl)]
          constructor
          · intro hx
            exact absurd ((h.curChar j hj).mp hx).2 hjc
          · intro hx
            exact absurd hx hjp
    refine ⟨?_, ?_, ?_, ?_, ?_, ?_, ?_⟩
    · show 0 < scrC.length
      rw [hlenC]
      exact h.lenPos
    · show st.order.length = scrC.length
      rw [hlenC]
      exact h.orderLen
    · intro i hi
      show i < scrC.length
      rw [hlenC]
      exact h.orderBound i hi
    · show st.active = st.order.filter (fun i => !(getS scrC i).paused)
      rw [h.activeFilter]
      refine (List.filter_congr (fun a _ => ?_)).symm
      rw [hpau]
    · show st.selectedId < scrC.length
      rw [hlenC]
      exact h.selLt
    · intro j hj
      rw [hlenC] at hj
      show (getS scrC j).selected = true ↔ j = st.selectedId
      rw [hselp]
      exact h.selChar j hj
    · intro j hj
      rw [hlenC] at hj
      show (getS scrC j).current = true ↔ (st.active ≠ [] ∧ j = prevCid st)
      rw [hcurC j hj]
      constructor
      · intro hx
        exact ⟨hne, hx⟩
      · intro hx
        exact hx.2

theorem getS_range_map (count : Nat) (f : Nat → Screen) (j : Nat)
    (h : j < count) : getS ((List.range count).map f) j = f j := by
  unfold getS
  rw [List.getD_eq_getElem _ _ (by simpa using h), List.getElem_map,
    List.getElem_range]

theorem cursorId_range0 (count : Nat) (h : 0 < count) (st : SCState)
    (hact : st.active = List.range count) (hoff : st.curOffset = 0) :
    cursorId st = 0 := by
  unfold cursorId cursorPos modlistIndex
  rw [hact, hoff]
  have h1 : ((0 : Int) * 1 + 0) % (((List.range count).length : Nat) : Int) = 0 := by
    norm_num
  rw [h1, Int.toNat_zero, List.getD_eq_getElem _ _ (by simpa using h)]
  simp

theorem scInit_eq (count : Nat) (pool : List Nat) (h : 0 < count) :
    scInit count pool = { scInitBase count pool with
      screens := setS (setS (scInitBase count pool).screens 0
          (fun s => { s with current := true })) 0
        (fun s => { s with selected := true }) } := by
  have hne : ¬ (scInitBase count pool).active.isEmpty = true := by
    show ¬ (List.range count).isEmpty = true
    simp [List.isEmpty_iff, List.range_eq_nil]
    omega
  have hcid : cursorId (scInitBase count pool) = 0 :=
    cursorId_range0 count h _ rfl rfl
  have hcur : currentScreenId (scInitBase count pool) = some 0 := by
    unfold currentScreenId
    rw [if_neg hne, hcid]
  unfold scInit
  simp only [hcur]
  rfl

theorem inv_scInit (count : Nat) (pool : List Nat) (h : 0 < count) :
    Inv (scInit count pool) := by
  rw [scInit_eq count pool h]
  have hscr0 : (scInitBase count pool).screens = (List.range count).map
      (fun (i : Nat) =>
        { idx := (i : Int), step := (count : Int), offset := (i : Int), wpOffset := 0,
          current := false, selected := false, paused := false : Screen }) := rfl
  have hlen0 : (scInitBase count pool).screens.length = count := by
    rw [hscr0, List.length_map, List.length_range]
  have hlenA : (setS (scInitBase count pool).screens 0
      (fun s => { s with current := true })).length = count := by
    rw [length_setS, hlen0]
  have hlenB : (setS (setS (scInitBase count pool).screens 0
        (fun s => { s with current := true })) 0
      (fun s => { s with selected := true })).length = count := by
    rw [length_setS, hlenA]
  have hget0 : ∀ j, j < count → getS (scInitBase count pool).screens j =
      { idx := (j : Int), step := (count : Int), offset := (j : Int),
        wpOffset := 0, current := false, selected := false, paused := false } := by
    intro j hj
    rw [hscr0]
    exact getS_range_map count _ j hj
  have hcid : cursorId { scInitBase count pool with
      screens := setS (setS (scInitBase count pool).screens 0
          (fun s => { s with current := true })) 0
        (fun s => { s with selected := true }) } = 0 :=
    cursorId_range0 count h _ rfl rfl
  have hrange_ne : (List.range count) ≠ [] := by
    simp [List.range_eq_nil]
    omega
  refine ⟨?_, ?_, ?_, ?_, ?_, ?_, ?_⟩
  · show 0 < (setS (setS (scInitBase count pool).screens 0
        (fun s => { s with current := true })) 0
      (fun s => { s with selected := true })).length
    rw [hlenB]
    exact h
  · show (List.range count).length = (setS (setS (scInitBase count pool).screens 0
        (fun s => { s with current := true })) 0
      (fun s => { s with selected := true })).length
    rw [hlenB]
    simp
  · intro i hi
    show i < (setS (setS (scInitBase count pool).screens 0
        (fun s => { s with current := true })) 0
      (fun s => { s with selected := true })).length
    rw [hlenB]
    exact List.mem_range.mp hi
  · show List.range count = (List.range count).filter
      (fun i => !(getS (setS (setS (scInitBase count pool).screens 0
          (fun s => { s with current := true })) 0
        (fun s => { s with selected := true })) i).paused)
    refine (List.filter_eq_self.mpr (fun a ha => ?_)).symm
    have halt : a < count := List.mem_range.mp ha
    have hpau : (getS (setS (setS (scInitBase count pool).screens 0
        (fun s => { s with current := true })) 0
        (fun s => { s with selected := true })) a).paused = false := by
      rw [getS_setS_proj _ 0 (fun s => { s with selected := true }) a
          Screen.paused (fun s => rfl),
        getS_setS_proj _ 0 (fun s => { s with current := true }) a
          Screen.paused (fun s => rfl),
        hget0 a halt]
    rw [hpau]
    rfl
  · show 0 < (setS (setS (scInitBase count pool).screens 0
        (fun s => { s with current := true })) 0
      (fun s => { s with selected := true })).length
    rw [hlenB]
    exact h
  · intro j hj
    rw [hlenB] at hj
    show (getS (setS (setS (scInitBase count pool).screens 0
        (fun s => { s with current := true })) 0
      (fun s => { s with selected := true })) j).selected = true ↔ j = 0
    by_cases hj0 : j = 0
    · subst hj0
      rw [getS_setS_self _ _ _ (by rw [hlenA]; exact h)]
      simp
    · rw [getS_setS_ne _ _ _ _ hj0,
        getS_setS_proj _ 0 (fun s => { s with current := true }) j
          Screen.selected (fun s => rfl),
        hget0 j hj]
      simp [hj0]
  · intro j hj
    rw [hlenB] at hj
    rw [hcid]
    show (getS (setS (setS (scInitBase count pool).screens 0
        (fun s => { s with current := true })) 0
      (fun s => { s with selected := true })) j).current = true ↔
      (List.range count ≠ [] ∧ j = 0)
    by_cases hj0 : j = 0
    · subst hj0
      rw [getS_setS_proj _ 0 (fun s => { s with selected := true }) 0
          Screen.current (fun s => rfl),
        getS_setS_self _ _ _ (by rw [hlen0]; exact h)]
      simp [hrange_ne]
    · rw [getS_setS_proj _ 0 (fun s => { s with selected := true }) j
          Screen.current (fun s => rfl),
        getS_setS_ne _ _ _ _ hj0,
        hget0 j hj]
      simp [hj0]

theorem inv_scStep (op : Op) (st : SCState) (h : Inv st) : Inv (scStep op st) := by
  cases op with
  | next => exact inv_scNext st h
  | prev => exact inv_scPrev st h
  | cycleScreens => exact inv_scCycleScreens st h
  | selectNext => exact inv_scSelectNext st h
  | selectPrev => exact inv_scSelectPrev st h
  | select i => exact inv_scSelect st i h
  | pauseSelected => exact inv_setPausedSelected st true h
  | unpauseSelected => exact inv_setPausedSelected st false h
  | togglePause => exact inv_setPausedSelected st _ h

theorem inv_foldl (ops : List Op) (st : SCState) (h : Inv st) :
    Inv (ops.foldl (fun st op => scStep op st) st) := by
  induction ops generalizing st with
  | nil => exact h
  | cons op rest ih => exact ih _ (inv_scStep op st h)

/-- Every state reachable from startup satisfies the invariant. -/
theorem inv_scRun (count : Nat) (pool : List Nat) (ops : List Op)
    (h : 0 < count) : Inv (scRun count pool ops) :=
  inv_foldl ops _ (inv_scInit count pool h)

/-! ### Field-preservation lemmas for the rotation operations -/

theorem getS_oob (l : List Screen) (i : Nat) (h : ¬ i < l.length) :
    getS l i = default := by
  unfold getS
  exact List.getD_eq_default _ _ (by omega)

theorem getS_map_proj {α : Type} (l : List Screen) (gmap : Screen → Screen)
    (i : Nat) (g : Screen → α) (hg : ∀ s, g (gmap s) = g s) :
    g (getS (l.map gmap) i) = g (getS l i) := by
  by_cases hi : i < l.length
  · rw [getS_map _ _ _ hi, hg]
  · rw [getS_oob _ _ (by rw [List.length_map]; exact hi), getS_oob _ _ hi]

theorem cursorId_congr (s1 s2 : SCState) (ha : s1.active = s2.active)
    (ho : s1.curOffset = s2.curOffset) : cursorId s1 = cursorId s2 := by
  unfold cursorId cursorPos
  rw [ha, ho]

theorem screens_ext (l1 l2 : List Screen) (hlen : l1.length = l2.length)
    (h : ∀ j, j < l2.length → getS l1 j = getS l2 j) : l1 = l2 := by
  refine List.ext_getElem hlen (fun n h1 h2 => ?_)
  have hx := h n h2
  unfold getS at hx
  rw [List.getD_eq_getElem _ _ h1, List.getD_eq_getElem _ _ h2] at hx
  exact hx

theorem updateActive_proj {α : Type} (st : SCState) (j : Nat) (g : Screen → α)
    (hgf : ∀ s, g { s with current := false } = g s)
    (hgt : ∀ s, g { s with current := true } = g s) :
    g (getS (updateActiveScreens st).screens j) = g (getS st.screens j) := by
  rw [updateActive_eq]
  show g (getS (if (List.filter (fun i => !(getS (clearCur st).screens i).paused)
      (clearCur st).order).isEmpty then _ else _ : SCState).screens j) = _
  split
  · show g (getS (clearCur st).screens j) = _
    exact clearCur_proj st j g hgf
  · rw [setCurrentFlag_screens,
      getS_setS_proj _ _ (fun s => { s with current := true }) j g hgt]
    exact clearCur_proj st j g hgf

theorem updateActive_order (st : SCState) :
    (updateActiveScreens st).order = st.order := by
  rw [updateActive_eq]
  show (if (List.filter (fun i => !(getS (clearCur st).screens i).paused)
      (clearCur st).order).isEmpty then _ else _ : SCState).order = _
  split
  · exact clearCur_order st
  · rw [setCurrentFlag_order]
    exact clearCur_order st

theorem updateActive_curOffset (st : SCState) :
    (updateActiveScreens st).curOffset = st.curOffset := by
  rw [updateActive_eq]
  show (if (List.filter (fun i => !(getS (clearCur st).screens i).paused)
      (clearCur st).order).isEmpty then _ else _ : SCState).curOffset = _
  split
  · exact clearCur_curOffset st
  · rw [setCurrentFlag_curOffset]
    exact clearCur_curOffset st

theorem updateActive_selectedId (st : SCState) :
    (updateActiveScreens st).selectedId = st.selectedId := by
  rw [updateActive_eq]
  show (if (List.filter (fun i => !(getS (clearCur st).screens i).paused)
      (clearCur st).order).isEmpty then _ else _ : SCState).selectedId = _
  split
  · exact clearCur_selectedId st
  · rw [setCurrentFlag_selectedId]
    exact clearCur_selectedId st

theorem updateActive_pool (st : SCState) :
    (updateActiveScreens st).pool = st.pool := by
  rw [updateActive_eq]
  show (if (List.filter (fun i => !(getS (clearCur st).screens i).paused)
      (clearCur st).order).isEmpty then _ else _ : SCState).pool = _
  split
  · exact clearCur_pool st
  · rw [setCurrentFlag_pool]
    exact clearCur_pool st

theorem updateActive_len (st : SCState) :
    (updateActiveScreens st).screens.length = st.screens.length := by
  rw [updateActive_eq]
  show (if (List.filter (fun i => !(getS (clearCur st).screens i).paused)
      (clearCur st).order).isEmpty then _ else _ : SCState).screens.length = _
  split
  · exact clearCur_len st
  · rw [setCurrentFlag_screens, length_setS]
    exact clearCur_len st

theorem setSelected_proj {α : Type} (st : SCState) (tid : Nat) (j : Nat)
    (g : Screen → α)
    (hgf : ∀ s, g { s with selected := false } = g s)
    (hgt : ∀ s, g { s with selected := true } = g s) :
    g (getS (setSelected st tid).screens j) = g (getS st.screens j) := by
  rw [setSelected_screens,
    getS_setS_proj _ tid (fun s => { s with selected := true }) j g hgt,
    getS_setS_proj _ st.selectedId (fun s => { s with selected := false }) j g hgf]

theorem setSelected_order (st : SCState) (tid : Nat) :
    (setSelected st tid).order = st.order := rfl

theorem setSelected_active (st : SCState) (tid : Nat) :
    (setSelected st tid).active = st.active := rfl

theorem setSelected_curOffset (st : SCState) (tid : Nat) :
    (setSelected st tid).curOffset = st.curOffset := rfl

theorem setSelected_pool (st : SCState) (tid : Nat) :
    (setSelected st tid).pool = st.pool := rfl

/-- C6: in every state reachable from startup (any screen count ≥ 1, any
pool, any command sequence), exactly one screen is marked current when
the active set is non-empty, no screen is current when it is empty, and
at most one screen is marked selected. -/
theorem rotation_flag_invariant (count : Nat) (pool : List Nat) (ops : List Op)
    (h : 0 < count) :
    ((scRun count pool ops).active ≠ [] →
      ∃! j : Nat, j < (scRun count pool ops).screens.length ∧
        (getS (scRun count pool ops).screens j).current = true) ∧
    ((scRun count pool ops).active = [] →
      ∀ j, j < (scRun count pool ops).screens.length →
        (getS (scRun count pool ops).screens j).current = false) ∧
    (∀ j k, j < (scRun count pool ops).screens.length →
      k < (scRun count pool ops).screens.length →
      (getS (scRun count pool ops).screens j).selected = true →
      (getS (scRun count pool ops).screens k).selected = true → j = k) := by
  have hinv := inv_scRun count pool ops h
  refine ⟨?_, ?_, ?_⟩
  · intro hne
    refine ⟨cursorId (scRun count pool ops),
      ⟨hinv.cursorId_lt hne, (hinv.curChar _ (hinv.cursorId_lt hne)).mpr
        ⟨hne, rfl⟩⟩, ?_⟩
    intro k hk
    exact ((hinv.curChar k hk.1).mp hk.2).2
  · intro hnil j hj
    cases hcur : (getS (scRun count pool ops).screens j).current
    · rfl
    · exact absurd ((hinv.curChar j hj).mp hcur).1 (by simp [hnil])
  · intro j k hj hk hsj hsk
    rw [(hinv.selChar j hj).mp hsj, (hinv.selChar k hk).mp hsk]

/-- C6 witness: two screens, a four-image pool, a tick followed by a
pause toggle. -/
theorem rotation_flag_invariant_witness :
    ((scRun 2 [1, 2, 3, 4] [Op.next, Op.togglePause]).active ≠ [] →
      ∃! j : Nat, j < (scRun 2 [1, 2, 3, 4] [Op.next, Op.togglePause]).screens.length ∧
        (getS (scRun 2 [1, 2, 3, 4] [Op.next, Op.togglePause]).screens j).current = true) ∧
    ((scRun 2 [1, 2, 3, 4] [Op.next, Op.togglePause]).active = [] →
      ∀ j, j < (scRun 2 [1, 2, 3, 4] [Op.next, Op.togglePause]).screens.length →
        (getS (scRun 2 [1, 2, 3, 4] [Op.next, Op.togglePause]).screens j).current = false) ∧
    (∀ j k, j < (scRun 2 [1, 2, 3, 4] [Op.next, Op.togglePause]).screens.length →
      k < (scRun 2 [1, 2, 3, 4] [Op.next, Op.togglePause]).screens.length →
      (getS (scRun 2 [1, 2, 3, 4] [Op.next, Op.togglePause]).screens j).selected = true →
      (getS (scRun 2 [1, 2, 3, 4] [Op.next, Op.togglePause]).screens k).selected = true →
      j = k) :=
  rotation_flag_invariant 2 [1, 2, 3, 4] [Op.next, Op.togglePause] (by decide)

theorem scNext_screens (st : SCState) (hA : ¬ st.active.isEmpty = true) :
    (scNext st).screens = setS (setS (setS st.screens (cursorId st)
        (fun s => { s with current := false }))
      (nextCid st) (fun s => { s with current := true }))
      (nextCid st) (fun s => { s with wpOffset := s.wpOffset + 1 }) := by
  rw [scNext_eq st hA]
  rfl

theorem scNext_current (st : SCState) (h : Inv st) (hne : st.active ≠ [])
    (j : Nat) (hj : j < st.screens.length) :
    ((getS (scNext st).screens j).current = true ↔ j = nextCid st) := by
  have hA : ¬ st.active.isEmpty = true := by simp [List.isEmpty_iff, hne]
  have hcid : cursorId st < st.screens.length := h.cursorId_lt hne
  have hncid : nextCid st < st.screens.length :=
    h.activeBound _ (getD_mem_of_lt _ _ (cursorPos_lt _ _ hne))
  rw [scNext_screens st hA]
  have hlenA : (setS st.screens (cursorId st)
      (fun s => { s with current := false })).length = st.screens.length :=
    length_setS _ _ _
  have hlenB : (setS (setS st.screens (cursorId st)
        (fun s => { s with current := false }))
      (nextCid st) (fun s => { s with current := true })).length =
      st.screens.length := by
    rw [length_setS, hlenA]
  by_cases hjn : j = nextCid st
  · subst hjn
    rw [getS_setS_self _ _ _ (by rw [hlenB]; exact hncid),
      getS_setS_self _ _ _ (by rw [hlenA]; exact hncid)]
    simp
  · rw [getS_setS_ne _ _ _ _ hjn, getS_setS_ne _ _ _ _ hjn]
    by_cases hjc : j = cursorId st
    · subst hjc
      rw [getS_setS_self _ _ _ hcid]
      simp [hjn]
    · rw [getS_setS_ne _ _ _ _ hjc]
      constructor
      · intro hx
        exact absurd ((h.curChar j hj).mp hx).2 hjc
      · intro hx
        exact absurd hx hjn

theorem scNext_wp (st : SCState) (h : Inv st) (hne : st.active ≠ [])
    (j : Nat) :
    (getS (scNext st).screens j).wpOffset =
      (if j = nextCid st ∧ nextCid st < st.screens.length
       then (getS st.screens j).wpOffset + 1
       else (getS st.screens j).wpOffset) := by
  have hA : ¬ st.active.isEmpty = true := by simp [List.isEmpty_iff, hne]
  rw [scNext_screens st hA]
  have hlenA : (setS st.screens (cursorId st)
      (fun s => { s with current := false })).length = st.screens.length :=
    length_setS _ _ _
  have hlenB : (setS (setS st.screens (cursorId st)
        (fun s => { s with current := false }))
      (nextCid st) (fun s => { s with current := true })).length =
      st.screens.length := by
    rw [length_setS, hlenA]
  by_cases hc : j = nextCid st ∧ nextCid st < st.screens.length
  · rw [if_pos hc]
    obtain ⟨hj1, hj2⟩ := hc
    rw [hj1, getS_setS_self _ _ _ (by rw [hlenB]; exact hj2)]
    show (getS (setS (setS st.screens (cursorId st)
        (fun s => { s with current := false }))
      (nextCid st) (fun s => { s with current := true })) (nextCid st)).wpOffset + 1 =
      (getS st.screens (nextCid st)).wpOffset + 1
    rw [getS_setS_proj _ (nextCid st) (fun s => { s with current := true })
        (nextCid st) Screen.wpOffset (fun s => rfl),
      getS_setS_proj _ (cursorId st) (fun s => { s with current := false })
        (nextCid st) Screen.wpOffset (fun s => rfl)]
  · rw [if_neg hc]
    by_cases hj1 : j = nextCid st
    · subst hj1
      have hj2 : ¬ nextCid st < st.screens.length := fun hx => hc ⟨rfl, hx⟩
      rw [getS_oob _ _ (by rw [length_setS, hlenB]; exact hj2),
        getS_oob _ _ hj2]
    · rw [getS_setS_ne _ _ _ _ hj1,
        getS_setS_proj _ (nextCid st) (fun s => { s with current := true }) j
          Screen.wpOffset (fun s => rfl),
        getS_setS_proj _ (cursorId st) (fun s => { s with current := false }) j
          Screen.wpOffset (fun s => rfl)]

/-- C4: a Tick (`ScreenController.next`) with a non-empty active set
advances the cursor offset by exactly one (the effective cursor position
wraps modulo the active length at the read), sets `isCurrent` on exactly
the screen now at the cursor (clearing it on the previously current
screen), advances exactly that screen's wallpaper cursor by one, and
pushes the recomputed composite wallpaper list to the display; with an
empty active set a Tick changes nothing at all. -/
theorem tick_spec (st : SCState) (h : Inv st) :
    (st.active = [] → scNext st = st) ∧
    (st.active ≠ [] →
      (scNext st).curOffset = st.curOffset + 1 ∧
      (scNext st).active = st.active ∧
      (scNext st).order = st.order ∧
      (scNext st).pool = st.pool ∧
      cursorId (scNext st) = nextCid st ∧
      (getS (scNext st).screens (nextCid st)).current = true ∧
      (∀ j, j < st.screens.length → j ≠ nextCid st →
        (getS (scNext st).screens j).current = false) ∧
      (getS (scNext st).screens (nextCid st)).wpOffset =
        (getS st.screens (nextCid st)).wpOffset + 1 ∧
      (∀ j, j < st.screens.length → j ≠ nextCid st →
        (getS (scNext st).screens j).wpOffset = (getS st.screens j).wpOffset) ∧
      (scNext st).live = composite (scNext st)) := by
  constructor
  · intro hnil
    exact scNext_empty st (by simp [hnil])
  · intro hne
    have hA : ¬ st.active.isEmpty = true := by simp [List.isEmpty_iff, hne]
    have hncid : nextCid st < st.screens.length :=
      h.activeBound _ (getD_mem_of_lt _ _ (cursorPos_lt _ _ hne))
    refine ⟨?_, ?_, ?_, ?_, ?_, ?_, ?_, ?_, ?_, ?_⟩
    · rw [scNext_eq st hA]
      rfl
    · rw [scNext_eq st hA]
      rfl
    · rw [scNext_eq st hA]
      rfl
    · rw [scNext_eq st hA]
      rfl
    · rw [scNext_eq st hA]
      rfl
    · exact (scNext_current st h hne _ hncid).mpr rfl
    · intro j hj hjn
      cases hcur : (getS (scNext st).screens j).current
      · rfl
      · exact absurd ((scNext_current st h hne j hj).mp hcur) hjn
    · rw [scNext_wp st h hne]
      rw [if_pos ⟨rfl, hncid⟩]
    · intro j hj hjn
      rw [scNext_wp st h hne, if_neg (fun hc => hjn hc.1)]
    · rw [scNext_eq st hA]
      rfl

/-- C4 witness: the startup state with two screens and four wallpapers
has a non-empty active set; a Tick advances the cursor from 0 to 1. -/
theorem tick_spec_witness :
    (scInit 2 [1, 2, 3, 4]).active ≠ [] ∧
    (scNext (scInit 2 [1, 2, 3, 4])).curOffset =
      (scInit 2 [1, 2, 3, 4]).curOffset + 1 ∧
    (getS (scNext (scInit 2 [1, 2, 3, 4])).screens
      (nextCid (scInit 2 [1, 2, 3, 4]))).current = true := by
  have hinv : Inv (scInit 2 [1, 2, 3, 4]) := inv_scInit 2 [1, 2, 3, 4] (by decide)
  have hne : (scInit 2 [1, 2, 3, 4]).active ≠ [] := by decide
  have h := (tick_spec (scInit 2 [1, 2, 3, 4]) hinv).2 hne
  exact ⟨hne, h.1, h.2.2.2.2.2.1⟩

theorem bool_eq_of_true_iff (a b : Bool) (h : (a = true) ↔ (b = true)) :
    a = b := by
  cases a <;> cases b <;> simp_all

/-- C9: toggling the selected screen's pause flag twice restores the
active list (same screens, same order), the active-set cursor offset
(which pause operations never touch), and every screen's `isCurrent`
flag.  Under the reachability invariant a screen is always selected, so
the claim's precondition is met in every reachable state. -/
theorem pause_toggle_restores (st : SCState) (h : Inv st) :
    (scTogglePause (scTogglePause st)).active = st.active ∧
    (scTogglePause (scTogglePause st)).curOffset = st.curOffset ∧
    (∀ j, j < st.screens.length →
      (getS (scTogglePause (scTogglePause st)).screens j).current =
        (getS st.screens j).current) := by
  have hT1inv : Inv (scTogglePause st) := inv_setPausedSelected st _ h
  have hT2inv : Inv (scTogglePause (scTogglePause st)) :=
    inv_setPausedSelected _ _ hT1inv
  -- first toggle
  have hoff1 : (scTogglePause st).curOffset = st.curOffset := by
    show (updateActiveScreens _).curOffset = st.curOffset
    rw [updateActive_curOffset]
  have hord1 : (scTogglePause st).order = st.order := by
    show (updateActiveScreens _).order = st.order
    rw [updateActive_order]
  have hsel1 : (scTogglePause st).selectedId = st.selectedId := by
    show (updateActiveScreens _).selectedId = st.selectedId
    rw [updateActive_selectedId]
  have hlen1 : (scTogglePause st).screens.length = st.screens.length := by
    show (updateActiveScreens _).screens.length = st.screens.length
    rw [updateActive_len]
    show (setS st.screens st.selectedId
      (fun s => { s with
        paused := !(getS st.screens st.selectedId).paused })).length =
      st.screens.length
    rw [length_setS]
  have hpau1 : ∀ j, (getS (scTogglePause st).screens j).paused =
      (if j = st.selectedId then !(getS st.screens st.selectedId).paused
       else (getS st.screens j).paused) := by
    intro j
    show (getS (updateActiveScreens _).screens j).paused = _
    rw [updateActive_proj _ j Screen.paused (fun s => rfl) (fun s => rfl)]
    show (getS (setS st.screens st.selectedId
      (fun s => { s with paused := !(getS st.screens st.selectedId).paused })
        ) j).paused = _
    by_cases hj : j = st.selectedId
    · subst hj
      rw [getS_setS_self _ _ _ h.selLt, if_pos rfl]
    · rw [getS_setS_ne _ _ _ _ hj, if_neg hj]
  -- the second flipped value restores the original
  have hb2 : (!(getS (scTogglePause st).screens
      ((scTogglePause st).selectedId)).paused) =
      (getS st.screens st.selectedId).paused := by
    rw [hsel1, hpau1 st.selectedId, if_pos rfl, Bool.not_not]
  -- paused flags after both toggles equal the original ones
  have hpau2 : ∀ j, (getS (scTogglePause (scTogglePause st)).screens j).paused =
      (getS st.screens j).paused := by
    intro j
    show (getS (updateActiveScreens _).screens j).paused = _
    rw [updateActive_proj _ j Screen.paused (fun s => rfl) (fun s => rfl)]
    show (getS (setS (scTogglePause st).screens
      ((scTogglePause st).selectedId)
      (fun s => { s with paused := !(getS (scTogglePause st).screens
        ((scTogglePause st).selectedId)).paused })) j).paused = _
    by_cases hj : j = (scTogglePause st).selectedId
    · subst hj
      rw [getS_setS_self _ _ _ (by rw [hlen1, hsel1]; exact h.selLt)]
      show (!(getS (scTogglePause st).screens
        ((scTogglePause st).selectedId)).paused) =
        (getS st.screens ((scTogglePause st).selectedId)).paused
      rw [hb2, hsel1]
    · rw [getS_setS_ne _ _ _ _ hj, hpau1 j, if_neg (by rw [← hsel1]; exact hj)]
  have hord2 : (scTogglePause (scTogglePause st)).order = st.order := by
    show (updateActiveScreens _).order = _
    rw [updateActive_order]
    exact hord1
  have hoff2 : (scTogglePause (scTogglePause st)).curOffset = st.curOffset := by
    show (updateActiveScreens _).curOffset = _
    rw [updateActive_curOffset]
    exact hoff1
  have hlen2 : (scTogglePause (scTogglePause st)).screens.length =
      st.screens.length := by
    show (updateActiveScreens _).screens.length = _
    rw [updateActive_len]
    show (setS (scTogglePause st).screens ((scTogglePause st).selectedId)
      (fun s => { s with
        paused := !(getS (scTogglePause st).screens
          ((scTogglePause st).selectedId)).paused })).length = st.screens.length
    rw [length_setS]
    exact hlen1
  have hact2 : (scTogglePause (scTogglePause st)).active = st.active := by
    rw [hT2inv.activeFilter, hord2, h.activeFilter]
    exact List.filter_congr (fun a _ => by rw [hpau2 a])
  refine ⟨hact2, hoff2, ?_⟩
  intro j hj
  have hcid : cursorId (scTogglePause (scTogglePause st)) = cursorId st :=
    cursorId_congr _ _ hact2 hoff2
  refine bool_eq_of_true_iff _ _ ?_
  rw [hT2inv.curChar j (by rw [hlen2]; exact hj), h.curChar j hj, hact2, hcid]

/-- C9 witness: the startup state with two screens and four wallpapers
(screen 0 selected and unpaused). -/
theorem pause_toggle_restores_witness :
    (scTogglePause (scTogglePause (scInit 2 [1, 2, 3, 4]))).active =
      (scInit 2 [1, 2, 3, 4]).active ∧
    (scTogglePause (scTogglePause (scInit 2 [1, 2, 3, 4]))).curOffset =
      (scInit 2 [1, 2, 3, 4]).curOffset ∧
    (∀ j, j < (scInit 2 [1, 2, 3, 4]).screens.length →
      (getS (scTogglePause (scTogglePause (scInit 2 [1, 2, 3, 4]))).screens j).current =
        (getS (scInit 2 [1, 2, 3, 4]).screens j).current) :=
  pause_toggle_restores (scInit 2 [1, 2, 3, 4])
    (inv_scInit 2 [1, 2, 3, 4] (by decide))

theorem screen_ext (a b : Screen) (h1 : a.idx = b.idx) (h2 : a.step = b.step)
    (h3 : a.offset = b.offset) (h4 : a.wpOffset = b.wpOffset)
    (h5 : a.current = b.current) (h6 : a.selected = b.selected)
    (h7 : a.paused = b.paused) : a = b := by
  cases a
  cases b
  simp_all

/-- C10: with a non-empty active set, `prev` undoes `next` exactly:
`next` advances the cursor and the new current screen's wallpaper offset,
`prev` first steps that same screen's wallpaper back, then moves the
cursor back and restores the `isCurrent` flags, so the entire rotation
state (cursor offset, every screen record, active list, screen order,
pool and selection) returns to its pre-`next` value. -/
theorem prev_next_restores (st : SCState) (h : Inv st) (hne : st.active ≠ []) :
    (scPrev (scNext st)).curOffset = st.curOffset ∧
    (scPrev (scNext st)).screens = st.screens ∧
    (scPrev (scNext st)).active = st.active ∧
    (scPrev (scNext st)).order = st.order ∧
    (scPrev (scNext st)).pool = st.pool ∧
    (scPrev (scNext st)).selectedId = st.selectedId := by
  have hA : ¬ st.active.isEmpty = true := by simp [List.isEmpty_iff, hne]
  have hc : cursorId st < st.screens.length := h.cursorId_lt hne
  have hn : nextCid st < st.screens.length :=
    h.activeBound _ (getD_mem_of_lt _ _ (cursorPos_lt _ _ hne))
  have hNact : (scNext st).active = st.active := by
    rw [scNext_eq st hA]
    rfl
  have hNoff : (scNext st).curOffset = st.curOffset + 1 := by
    rw [scNext_eq st hA]
    rfl
  have hNord : (scNext st).order = st.order := by
    rw [scNext_eq st hA]
    rfl
  have hNpool : (scNext st).pool = st.pool := by
    rw [scNext_eq st hA]
    rfl
  have hNsel : (scNext st).selectedId = st.selectedId := by
    rw [scNext_eq st hA]
    rfl
  have hNA : ¬ (scNext st).active.isEmpty = true := by
    rw [hNact]
    exact hA
  have hcidN : cursorId (scNext st) = nextCid st := by
    unfold cursorId cursorPos
    rw [hNact, hNoff]
    rfl
  have hpcidN : prevCid (scNext st) = cursorId st := by
    unfold prevCid
    rw [hNact, hNoff]
    have harith : st.curOffset + 1 - 1 = st.curOffset := by ring
    rw [harith]
    rfl
  have hlenA1 : (setS st.screens (cursorId st)
      (fun s => { s with current := false })).length = st.screens.length :=
    length_setS _ _ _
  have hlenA2 : (setS (setS st.screens (cursorId st)
        (fun s => { s with current := false }))
      (nextCid st) (fun s => { s with current := true })).length =
      st.screens.length := by
    rw [length_setS, hlenA1]
  have hNscr : (scNext st).screens = setS (setS (setS st.screens (cursorId st)
      (fun s => { s with current := false }))
      (nextCid st) (fun s => { s with current := true }))
      (nextCid st) (fun s => { s with wpOffset := s.wpOffset + 1 }) :=
    scNext_screens st hA
  have hlenN : (scNext st).screens.length = st.screens.length := by
    rw [hNscr, length_setS, hlenA2]
  have hlenB1 : (setS (scNext st).screens (cursorId (scNext st))
      (fun s => { s with wpOffset := s.wpOffset - 1 })).length =
      st.screens.length := by
    rw [length_setS, hlenN]
  have hlenB2 : (setS (setS (scNext st).screens (cursorId (scNext st))
        (fun s => { s with wpOffset := s.wpOffset - 1 }))
      (cursorId (scNext st)) (fun s => { s with current := false })).length =
      st.screens.length := by
    rw [length_setS, hlenB1]
  have hPscr : (scPrev (scNext st)).screens =
      setS (setS (setS (scNext st).screens (cursorId (scNext st))
          (fun s => { s with wpOffset := s.wpOffset - 1 }))
        (cursorId (scNext st)) (fun s => { s with current := false }))
        (prevCid (scNext st)) (fun s => { s with current := true }) := by
    rw [scPrev_eq _ hNA]
    rfl
  refine ⟨?_, ?_, ?_, ?_, ?_, ?_⟩
  · rw [scPrev_eq _ hNA]
    show (scNext st).curOffset - 1 = st.curOffset
    rw [hNoff]
    ring
  · rw [hPscr, hcidN, hpcidN, hNscr]
    refine screens_ext _ _ ?_ ?_
    · rw [length_setS, length_setS, length_setS, length_setS, hlenA2]
    · intro j hj
      by_cases hjc : j = cursorId st
      · by_cases hjn : j = nextCid st
        · -- the cursor stays on the same screen
          have hcurT : (getS st.screens j).current = true :=
            (h.curChar j hj).mpr ⟨hne, hjc⟩
          rw [← hjc, ← hjn,
            getS_setS_self _ _ _ (by
              rw [length_setS, length_setS, length_setS, length_setS,
                length_setS]
              exact hj),
            getS_setS_self _ _ _ (by
              rw [length_setS, length_setS, length_setS, length_setS]
              exact hj),
            getS_setS_self _ _ _ (by
              rw [length_setS, length_setS, length_setS]
              exact hj),
            getS_setS_self _ _ _ (by
              rw [length_setS, length_setS]
              exact hj),
            getS_setS_self _ _ _ (by
              rw [length_setS]
              exact hj),
            getS_setS_self _ _ _ hj]
          refine screen_ext _ _ rfl rfl rfl ?_ ?_ rfl rfl
          · show (getS st.screens j).wpOffset + 1 - 1 = (getS st.screens j).wpOffset
            ring
          · show true = (getS st.screens j).current
            exact hcurT.symm
        · -- j is the old cursor, distinct from the new one
          have hcurT : (getS st.screens j).current = true :=
            (h.curChar j hj).mpr ⟨hne, hjc⟩
          rw [← hjc,
            getS_setS_self _ _ _ (by
              rw [length_setS, length_setS, length_setS, length_setS,
                length_setS]
              exact hj),
            getS_setS_ne _ _ _ _ hjn, getS_setS_ne _ _ _ _ hjn,
            getS_setS_ne _ _ _ _ hjn, getS_setS_ne _ _ _ _ hjn,
            getS_setS_self _ _ _ hj]
          refine screen_ext _ _ rfl rfl rfl rfl ?_ rfl rfl
          show true = (getS st.screens j).current
          exact hcurT.symm
      · by_cases hjn : j = nextCid st
        · -- j is the new cursor, distinct from the old one
          have hcurF : (getS st.screens j).current = false := by
            cases hcur : (getS st.screens j).current
            · rfl
            · exact absurd ((h.curChar j hj).mp hcur).2 hjc
          rw [← hjn,
            getS_setS_ne _ _ _ _ hjc,
            getS_setS_self _ _ _ (by
              rw [length_setS, length_setS, length_setS, length_setS]
              exact hj),
            getS_setS_self _ _ _ (by
              rw [length_setS, length_setS, length_setS]
              exact hj),
            getS_setS_self _ _ _ (by
              rw [length_setS, length_setS]
              exact hj),
            getS_setS_self _ _ _ (by
              rw [length_setS]
              exact hj),
            getS_setS_ne _ _ _ _ hjc]
          refine screen_ext _ _ rfl rfl rfl ?_ ?_ rfl rfl
          · show (getS st.screens j).wpOffset + 1 - 1 = (getS st.screens j).wpOffset
            ring
          · show false = (getS st.screens j).current
            exact hcurF.symm
        · -- j is unrelated to both cursors
          rw [getS_setS_ne _ _ _ _ hjc, getS_setS_ne _ _ _ _ hjn,
            getS_setS_ne _ _ _ _ hjn, getS_setS_ne _ _ _ _ hjn,
            getS_setS_ne _ _ _ _ hjn, getS_setS_ne _ _ _ _ hjc]
  · rw [scPrev_eq _ hNA]
    show (scNext st).active = st.active
    exact hNact
  · rw [scPrev_eq _ hNA]
    show (scNext st).order = st.order
    exact hNord
  · rw [scPrev_eq _ hNA]
    show (scNext st).pool = st.pool
    exact hNpool
  · rw [scPrev_eq _ hNA]
    show (scNext st).selectedId = st.selectedId
    exact hNsel

/-- C10 witness: startup state with two screens and four wallpapers. -/
theorem prev_next_restores_witness :
    (scPrev (scNext (scInit 2 [1, 2, 3, 4]))).curOffset =
      (scInit 2 [1, 2, 3, 4]).curOffset ∧
    (scPrev (scNext (scInit 2 [1, 2, 3, 4]))).screens =
      (scInit 2 [1, 2, 3, 4]).screens ∧
    (scPrev (scNext (scInit 2 [1, 2, 3, 4]))).active =
      (scInit 2 [1, 2, 3, 4]).active ∧
    (scPrev (scNext (scInit 2 [1, 2, 3, 4]))).order =
      (scInit 2 [1, 2, 3, 4]).order ∧
    (scPrev (scNext (scInit 2 [1, 2, 3, 4]))).pool =
      (scInit 2 [1, 2, 3, 4]).pool ∧
    (scPrev (scNext (scInit 2 [1, 2, 3, 4]))).selectedId =
      (scInit 2 [1, 2, 3, 4]).selectedId :=
  prev_next_restores (scInit 2 [1, 2, 3, 4])
    (inv_scInit 2 [1, 2, 3, 4] (by decide)) (by decide)

/-- C5 counterexample: two screens over the pool `[10, 20, 30, 40]`,
screen 0 (monitor 0) paused via the selected-screen toggle.  Before
`cycle_screens` the screen at monitor position 0 is paused; afterwards
the screen at monitor position 0 is not paused — the `isPaused` flag
travelled with the screen object (and its partition) to the other
monitor instead of staying attached to the physical monitor index. -/
theorem cycle_screens_counterexample :
    (getS (scTogglePause (scInit 2 [10, 20, 30, 40])).screens
      ((scTogglePause (scInit 2 [10, 20, 30, 40])).order.getD 0 0)).paused
      = true ∧
    (getS (scCycleScreens (scTogglePause (scInit 2 [10, 20, 30, 40]))).screens
      ((scCycleScreens (scTogglePause (scInit 2 [10, 20, 30, 40]))).order.getD 0 0)).paused
      = false := by
  constructor
  · rfl
  · rfl

theorem scSelectPrev_order (st : SCState) : (scSelectPrev st).order = st.order := rfl

theorem scSelectPrev_pool (st : SCState) : (scSelectPrev st).pool = st.pool := rfl

theorem scSelectPrev_len (st : SCState) :
    (scSelectPrev st).screens.length = st.screens.length :=
  setSelected_len st _

theorem scSelectPrev_proj {α : Type} (st : SCState) (j : Nat) (g : Screen → α)
    (hsf : ∀ s, g { s with selected := false } = g s)
    (hst : ∀ s, g { s with selected := true } = g s) :
    g (getS (scSelectPrev st).screens j) = g (getS st.screens j) :=
  setSelected_proj st _ j g hsf hst

theorem scCycle_eq (st : SCState) : scCycleScreens st =
    updateLive (scSelectPrev (updateActiveScreens { st with
      screens := st.screens.map
        (fun s => { s with idx := (s.idx + 1) % (st.screens.length : Int) }),
      order := st.order.drop 1 ++ st.order.take 1 })) := rfl

/-- C5 amended: `cycle_screens` rotates `self.screens` left by one, so
monitor position `i` now shows the entire screen object (its partition
together with its wallpaper cursor and its pause flag) that monitor
`i+1` had — the cursor and `isPaused` follow the partition, not the
physical monitor index.  No wallpaper data changes: the pool and every
screen object's partition (`step`/`offset`), wallpaper cursor and pause
flag are untouched, and the recomputed composite is pushed to the
display.  When the `idx` attributes are consistent with the monitor
positions (as at startup), the re-selection performed at the end keeps
the selected *monitor position* unchanged. -/
theorem cycle_screens_rotates_objects (st : SCState) (h : Inv st)
    (hidx : ∀ p, p < st.screens.length →
      (getS st.screens (st.order.getD p 0)).idx = (p : Int)) :
    (scCycleScreens st).order = st.order.drop 1 ++ st.order.take 1 ∧
    (scCycleScreens st).pool = st.pool ∧
    (scCycleScreens st).screens.length = st.screens.length ∧
    (∀ i, (getS (scCycleScreens st).screens i).step = (getS st.screens i).step ∧
      (getS (scCycleScreens st).screens i).offset = (getS st.screens i).offset ∧
      (getS (scCycleScreens st).screens i).wpOffset = (getS st.screens i).wpOffset ∧
      (getS (scCycleScreens st).screens i).paused = (getS st.screens i).paused) ∧
    (∀ p, p < st.screens.length → st.order.getD p 0 = st.selectedId →
      (scCycleScreens st).order.getD p 0 = (scCycleScreens st).selectedId) ∧
    (scCycleScreens st).live = composite (scCycleScreens st) := by
  have hproj : ∀ (i : Nat) (g : Screen → Int)
      (hgf : ∀ s, g { s with current := false } = g s)
      (hgt : ∀ s, g { s with current := true } = g s)
      (hsf : ∀ s, g { s with selected := false } = g s)
      (hst : ∀ s, g { s with selected := true } = g s)
      (hmap : ∀ s, g { s with idx := (s.idx + 1) % (st.screens.length : Int) } = g s),
      g (getS (scCycleScreens st).screens i) = g (getS st.screens i) := by
    intro i g hgf hgt hsf hst hmap
    rw [scCycle_eq]
    show g (getS (scSelectPrev (updateActiveScreens _)).screens i) = _
    rw [scSelectPrev_proj _ i g hsf hst, updateActive_proj _ i g hgf hgt]
    exact getS_map_proj st.screens _ i g hmap
  have hprojB : ∀ (i : Nat) (g : Screen → Bool)
      (hgf : ∀ s, g { s with current := false } = g s)
      (hgt : ∀ s, g { s with current := true } = g s)
      (hsf : ∀ s, g { s with selected := false } = g s)
      (hst : ∀ s, g { s with selected := true } = g s)
      (hmap : ∀ s, g { s with idx := (s.idx + 1) % (st.screens.length : Int) } = g s),
      g (getS (scCycleScreens st).screens i) = g (getS st.screens i) := by
    intro i g hgf hgt hsf hst hmap
    rw [scCycle_eq]
    show g (getS (scSelectPrev (updateActiveScreens _)).screens i) = _
    rw [scSelectPrev_proj _ i g hsf hst, updateActive_proj _ i g hgf hgt]
    exact getS_map_proj st.screens _ i g hmap
  have hord : (scCycleScreens st).order = st.order.drop 1 ++ st.order.take 1 := by
    rw [scCycle_eq]
    show (scSelectPrev (updateActiveScreens _)).order = _
    rw [scSelectPrev_order, updateActive_order]
  refine ⟨hord, ?_, ?_, ?_, ?_, ?_⟩
  · rw [scCycle_eq]
    show (scSelectPrev (updateActiveScreens _)).pool = _
    rw [scSelectPrev_pool, updateActive_pool]
  · rw [scCycle_eq]
    show (scSelectPrev (updateActiveScreens _)).screens.length = _
    rw [scSelectPrev_len, updateActive_len]
    exact List.length_map _ _
  · intro i
    exact ⟨hproj i Screen.step (fun s => rfl) (fun s => rfl) (fun s => rfl)
        (fun s => rfl) (fun s => rfl),
      hproj i Screen.offset (fun s => rfl) (fun s => rfl) (fun s => rfl)
        (fun s => rfl) (fun s => rfl),
      hproj i Screen.wpOffset (fun s => rfl) (fun s => rfl) (fun s => rfl)
        (fun s => rfl) (fun s => rfl),
      hprojB i Screen.paused (fun s => rfl) (fun s => rfl) (fun s => rfl)
        (fun s => rfl) (fun s => rfl)⟩
  · intro p hp hpsel
    rw [scCycle_eq]
    set st1 : SCState := { st with
      screens := st.screens.map
        (fun s => { s with idx := (s.idx + 1) % (st.screens.length : Int) }),
      order := st.order.drop 1 ++ st.order.take 1 } with hst1
    set st2 := updateActiveScreens st1 with hst2
    have hgoal_sel : (updateLive (scSelectPrev st2)).selectedId =
        st2.order.getD ((modlistIndex st2.screens.length 1 0
          ((getS st2.screens st2.selectedId).idx - 1)).toNat) 0 := rfl
    have hgoal_ord : (updateLive (scSelectPrev st2)).order = st2.order := rfl
    have h2ord : st2.order = st.order.drop 1 ++ st.order.take 1 := by
      rw [hst2, updateActive_order]
    have h2len : st2.screens.length = st.screens.length := by
      rw [hst2, updateActive_len]
      exact List.length_map _ _
    have h2sel : st2.selectedId = st.selectedId := by
      rw [hst2, updateActive_selectedId]
    have hidx2 : (getS st2.screens st.selectedId).idx =
        ((p : Int) + 1) % (st.screens.length : Int) := by
      rw [hst2, updateActive_proj st1 st.selectedId Screen.idx (fun s => rfl)
        (fun s => rfl)]
      have hmap : getS st1.screens st.selectedId =
          { getS st.screens st.selectedId with
            idx := ((getS st.screens st.selectedId).idx + 1) %
              (st.screens.length : Int) } :=
        getS_map st.screens _ st.selectedId h.selLt
      rw [hmap]
      show ((getS st.screens st.selectedId).idx + 1) %
        (st.screens.length : Int) = ((p : Int) + 1) % (st.screens.length : Int)
      have hpidx := hidx p hp
      rw [hpsel] at hpidx
      rw [hpidx]
    have hn0 : (0 : Int) < (st.screens.length : Int) := by
      exact_mod_cast h.lenPos
    have hpn : (p : Int) < (st.screens.length : Int) := by exact_mod_cast hp
    have hp0 : (0 : Int) ≤ (p : Int) := Int.natCast_nonneg p
    have harith : (((((p : Int) + 1) % (st.screens.length : Int)) - 1) * 1 + 0)
        % (st.screens.length : Int) = (p : Int) := by
      have hflat : (((((p : Int) + 1) % (st.screens.length : Int)) - 1) * 1 + 0)
          = ((((p : Int) + 1) % (st.screens.length : Int)) - 1) := by ring
      rw [hflat]
      by_cases hlt : (p : Int) + 1 < (st.screens.length : Int)
      · have h1 : ((p : Int) + 1) % (st.screens.length : Int) = (p : Int) + 1 :=
          Int.emod_eq_of_lt (by omega) hlt
        rw [h1]
        have h2 : (p : Int) + 1 - 1 = (p : Int) := by ring
        rw [h2]
        exact Int.emod_eq_of_lt hp0 hpn
      · have heq : (p : Int) + 1 = (st.screens.length : Int) := by omega
        rw [heq, Int.emod_self]
        have h3 : (0 : Int) - 1 = -1 := by ring
        rw [h3]
        have h4 : (-1 : Int) = ((st.screens.length : Int) - 1) +
            (st.screens.length : Int) * (-1) := by ring
        rw [h4, Int.add_mul_emod_self_left,
          Int.emod_eq_of_lt (by omega) (by omega)]
        omega
    rw [hgoal_ord, hgoal_sel, h2ord, h2sel, h2len, hidx2]
    unfold modlistIndex
    rw [harith]
    have h5 : ((p : Int)).toNat = p := Int.toNat_natCast p
    rw [h5]
  · rw [scCycle_eq]
    rfl

/-- C5 amended witness: the startup state with two screens over the pool
`[10, 20, 30, 40]` has consistent `idx` attributes. -/
theorem cycle_screens_rotates_objects_witness :
    (scCycleScreens (scInit 2 [10, 20, 30, 40])).order =
      (scInit 2 [10, 20, 30, 40]).order.drop 1 ++
        (scInit 2 [10, 20, 30, 40]).order.take 1 ∧
    (scCycleScreens (scInit 2 [10, 20, 30, 40])).pool =
      (scInit 2 [10, 20, 30, 40]).pool ∧
    (scCycleScreens (scInit 2 [10, 20, 30, 40])).screens.length =
      (scInit 2 [10, 20, 30, 40]).screens.length ∧
    (∀ i, (getS (scCycleScreens (scInit 2 [10, 20, 30, 40])).screens i).step =
        (getS (scInit 2 [10, 20, 30, 40]).screens i).step ∧
      (getS (scCycleScreens (scInit 2 [10, 20, 30, 40])).screens i).offset =
        (getS (scInit 2 [10, 20, 30, 40]).screens i).offset ∧
      (getS (scCycleScreens (scInit 2 [10, 20, 30, 40])).screens i).wpOffset =
        (getS (scInit 2 [10, 20, 30, 40]).screens i).wpOffset ∧
      (getS (scCycleScreens (scInit 2 [10, 20, 30, 40])).screens i).paused =
        (getS (scInit 2 [10, 20, 30, 40]).screens i).paused) ∧
    (∀ p, p < (scInit 2 [10, 20, 30, 40]).screens.length →
      (scInit 2 [10, 20, 30, 40]).order.getD p 0 =
        (scInit 2 [10, 20, 30, 40]).selectedId →
      (scCycleScreens (scInit 2 [10, 20, 30, 40])).order.getD p 0 =
        (scCycleScreens (scInit 2 [10, 20, 30, 40])).selectedId) ∧
    (scCycleScreens (scInit 2 [10, 20, 30, 40])).live =
      composite (scCycleScreens (scInit 2 [10, 20, 30, 40])) :=
  cycle_screens_rotates_objects (scInit 2 [10, 20, 30, 40])
    (inv_scInit 2 [10, 20, 30, 40] (by decide)) (by decide)

end Walliser
